import Mathlib

/-!
# Relay gateway (`server/index.js`): error translation, route table, review
# coercion and upload fan-out

A shallow embedding of the Express handlers of `server/index.js`.

* JavaScript values that reach the handlers (parsed request bodies, upstream
  response bodies, rejection reasons) are modelled by `JSVal`: the JSON
  fragment, with `undefined` and every Number.  A Number is carried by its
  string form; the Number an integer parse yields is computed by rounding to
  the nearest double.  Strings are sequences of Unicode characters; where the
  source counts or cuts UTF-16 code units (`slice`), the text is taken as code
  units.
* A handler is split the way the source is written: the upstream call it
  issues (`issue`), and the answer it gives once the call has settled
  (`respond`).  A handler that throws before issuing its call is `none`.
* An answer is what the handler hands to the response object: the status
  passed to `res.status` (or `res.sendStatus`) and the value passed to
  `res.json`.
* `relayError` is the single failure path shared by every route and by the
  upload relay.
* The language built-ins the handlers call (`parseInt`, `JSON.stringify`,
  ToString in template literals, `Promise.all`) are modelled after their
  ECMAScript and Bluebird descriptions.
-/

namespace Atelier

/-! ## Values -/

/-- Number of binary digits of `n`. -/
def bitLength (n : Nat) : Nat := (Nat.toDigits 2 n).length

/-- Number of decimal digits of `n`. -/
def decLength (n : Nat) : Nat := (Nat.toDigits 10 n).length

/-- The Number nearest to the integer `n`, as the integer it holds: `n` itself
below `2^53`, otherwise `n` rounded to 53 significant bits, ties to the even
significand; `none` when the result is `Infinity`. -/
def nearestDouble (n : Nat) : Option Nat :=
  if n < 2 ^ 53 then some n
  else
    let shift := bitLength n - 53
    let q := n / 2 ^ shift
    let r := n % 2 ^ shift
    let up := decide (2 ^ shift < 2 * r) || (decide (2 * r = 2 ^ shift) && decide (q % 2 = 1))
    let x := (if up then q + 1 else q) * 2 ^ shift
    if bitLength x ≤ 1024 then some x else none

/-- The integer with `k` significant decimal digits that reads back as the
Number `x`, if there is one among the two next to `x`: the closer one, the one
with the even last digit on a tie. -/
def shortestAt (x k : Nat) : Option Nat :=
  let p := decLength x - k
  let lo := x / 10 ^ p * 10 ^ p
  let hi := lo + 10 ^ p
  let okLo := nearestDouble lo == some x
  let okHi := nearestDouble hi == some x
  if okLo && okHi then
    if x - lo < hi - x then some lo
    else if hi - x < x - lo then some hi
    else if x / 10 ^ p % 2 == 0 then some lo else some hi
  else if okLo then some lo
  else if okHi then some hi
  else none

/-- Search for the least number of significant digits, from `k` on. -/
def shortestFrom (x : Nat) : Nat → Nat → Nat
  | 0, _ => x
  | fuel + 1, k =>
    match shortestAt x k with
    | some v => v
    | none => shortestFrom x fuel (k + 1)

/-- The integer with the fewest significant decimal digits that reads back as
the integer-valued Number `x` (Number::toString chooses its digits). -/
def shortestDecimal (x : Nat) : Nat := shortestFrom x (decLength x) 1

/-- Decimal digits without the trailing zeros. -/
def significand (ds : List Char) : List Char :=
  (ds.reverse.dropWhile (fun c => c == '0')).reverse

/-- Number::toString on the chosen digits: plain decimal up to 21 digits,
exponent form beyond. -/
def renderDecimal (v : Nat) : String :=
  if decLength v ≤ 21 then toString v
  else
    match significand (Nat.toDigits 10 v) with
    | [] => "0"
    | [d] => String.mk [d] ++ "e+" ++ toString (decLength v - 1)
    | d :: rest => String.mk (d :: '.' :: rest) ++ "e+" ++ toString (decLength v - 1)

/-- String form of the Number nearest to the integer `n`. -/
def renderNat (n : Nat) : String :=
  match nearestDouble n with
  | none => "Infinity"
  | some x => renderDecimal (shortestDecimal x)

/-- Number values.  A Number is represented by its string form, the result of
Number::toString (`"2.5"`, `"-7"`, `"1e+21"`, `"NaN"`, `"Infinity"`): the
string form identifies a Number up to the sign of zero, and the source never
tells the two zeros apart.  Only the strings Number::toString produces stand
for a Number. -/
structure JSNum where
  text : String
  deriving DecidableEq

/-- The Number `NaN`. -/
def JSNum.nan : JSNum := ⟨"NaN"⟩

/-- The Number nearest to the integer `n`. -/
def JSNum.ofNat (n : Nat) : JSNum := ⟨renderNat n⟩

/-- JavaScript values: the JSON fragment plus `undefined` and `NaN`.  An object
is the list of its own enumerable properties, in enumeration order. -/
inductive JSVal where
  | undefined
  | null
  | bool (b : Bool)
  | num (n : JSNum)
  | str (s : String)
  | arr (items : List JSVal)
  | obj (fields : List (String × JSVal))

namespace JSVal

mutual
/-- Decision procedure for equality of values. -/
def decEqVal : (a b : JSVal) → Decidable (a = b)
  | undefined, undefined => isTrue rfl
  | undefined, null => isFalse (by intro e; cases e)
  | undefined, bool _ => isFalse (by intro e; cases e)
  | undefined, num _ => isFalse (by intro e; cases e)
  | undefined, str _ => isFalse (by intro e; cases e)
  | undefined, arr _ => isFalse (by intro e; cases e)
  | undefined, obj _ => isFalse (by intro e; cases e)
  | null, undefined => isFalse (by intro e; cases e)
  | null, null => isTrue rfl
  | null, bool _ => isFalse (by intro e; cases e)
  | null, num _ => isFalse (by intro e; cases e)
  | null, str _ => isFalse (by intro e; cases e)
  | null, arr _ => isFalse (by intro e; cases e)
  | null, obj _ => isFalse (by intro e; cases e)
  | bool _, undefined => isFalse (by intro e; cases e)
  | bool _, null => isFalse (by intro e; cases e)
  | bool x, bool y =>
    if h : x = y then isTrue (by rw [h]) else isFalse (by intro e; cases e; exact h rfl)
  | bool _, num _ => isFalse (by intro e; cases e)
  | bool _, str _ => isFalse (by intro e; cases e)
  | bool _, arr _ => isFalse (by intro e; cases e)
  | bool _, obj _ => isFalse (by intro e; cases e)
  | num _, undefined => isFalse (by intro e; cases e)
  | num _, null => isFalse (by intro e; cases e)
  | num _, bool _ => isFalse (by intro e; cases e)
  | num x, num y =>
    if h : x = y then isTrue (by rw [h]) else isFalse (by intro e; cases e; exact h rfl)
  | num _, str _ => isFalse (by intro e; cases e)
  | num _, arr _ => isFalse (by intro e; cases e)
  | num _, obj _ => isFalse (by intro e; cases e)
  | str _, undefined => isFalse (by intro e; cases e)
  | str _, null => isFalse (by intro e; cases e)
  | str _, bool _ => isFalse (by intro e; cases e)
  | str _, num _ => isFalse (by intro e; cases e)
  | str x, str y =>
    if h : x = y then isTrue (by rw [h]) else isFalse (by intro e; cases e; exact h rfl)
  | str _, arr _ => isFalse (by intro e; cases e)
  | str _, obj _ => isFalse (by intro e; cases e)
  | arr _, undefined => isFalse (by intro e; cases e)
  | arr _, null => isFalse (by intro e; cases e)
  | arr _, bool _ => isFalse (by intro e; cases e)
  | arr _, num _ => isFalse (by intro e; cases e)
  | arr _, str _ => isFalse (by intro e; cases e)
  | arr xs, arr ys =>
    match decEqItems xs ys with
    | isTrue h => isTrue (by rw [h])
    | isFalse h => isFalse (by intro e; cases e; exact h rfl)
  | arr _, obj _ => isFalse (by intro e; cases e)
  | obj _, undefined => isFalse (by intro e; cases e)
  | obj _, null => isFalse (by intro e; cases e)
  | obj _, bool _ => isFalse (by intro e; cases e)
  | obj _, num _ => isFalse (by intro e; cases e)
  | obj _, str _ => isFalse (by intro e; cases e)
  | obj _, arr _ => isFalse (by intro e; cases e)
  | obj xs, obj ys =>
    match decEqFields xs ys with
    | isTrue h => isTrue (by rw [h])
    | isFalse h => isFalse (by intro e; cases e; exact h rfl)
/-- Decision procedure for equality of element lists. -/
def decEqItems : (xs ys : List JSVal) → Decidable (xs = ys)
  | [], [] => isTrue rfl
  | [], _ :: _ => isFalse (by intro e; cases e)
  | _ :: _, [] => isFalse (by intro e; cases e)
  | x :: xs, y :: ys =>
    match decEqVal x y, decEqItems xs ys with
    | isTrue h, isTrue t => isTrue (by rw [h, t])
    | isFalse h, _ => isFalse (by intro e; cases e; exact h rfl)
    | _, isFalse t => isFalse (by intro e; cases e; exact t rfl)
/-- Decision procedure for equality of property lists. -/
def decEqFields : (xs ys : List (String × JSVal)) → Decidable (xs = ys)
  | [], [] => isTrue rfl
  | [], _ :: _ => isFalse (by intro e; cases e)
  | _ :: _, [] => isFalse (by intro e; cases e)
  | (k, x) :: xs, (l, y) :: ys =>
    if hk : k = l then
      match decEqVal x y, decEqFields xs ys with
      | isTrue h, isTrue t => isTrue (by rw [hk, h, t])
      | isFalse h, _ => isFalse (by intro e; cases e; exact h rfl)
      | _, isFalse t => isFalse (by intro e; cases e; exact t rfl)
    else isFalse (by intro e; cases e; exact hk rfl)
end

instance : DecidableEq JSVal := decEqVal

/-- The Number literal `n` of the source (`500`, `50`, `200`, ...). -/
def lit (n : Nat) : JSVal := num (JSNum.ofNat n)

/-- ToBoolean: `undefined`, `null`, `false`, `0`, `NaN` and the empty string are
falsy, everything else (every array and object included) is truthy. -/
def truthy : JSVal → Bool
  | undefined => false
  | null => false
  | bool b => b
  | num n => n.text != "0" && n.text != "NaN"
  | str s => s != ""
  | arr _ => true
  | obj _ => true

/-- The values on which a member access throws a TypeError. -/
def isNullish : JSVal → Bool
  | undefined => true
  | null => true
  | _ => false

/-- The test `typeof v === 'string'`. -/
def isString : JSVal → Bool
  | str _ => true
  | _ => false

/-- Own-property lookup in a property list (first entry for the key). -/
def lookup (k : String) : List (String × JSVal) → Option JSVal
  | [] => none
  | (k', v) :: rest => if k' = k then some v else lookup k rest

/-- Member read `v.k` on a non-nullish `v`, for the member names the source
reads (`response`, `status`, `data`, `message`, `count`, `review`,
`characteristics`, `images`): none of them exists on a built-in prototype, so
the read yields the own property of an object and `undefined` on anything
else. -/
def getField (v : JSVal) (k : String) : JSVal :=
  match v with
  | obj fs => (lookup k fs).getD undefined
  | _ => undefined

/-- Plain member access `v.k`: a TypeError (`none`) on `undefined` and `null`. -/
def member (v : JSVal) (k : String) : Option JSVal :=
  if v.isNullish then none else some (v.getField k)

/-- Optional chaining `v?.k`: `undefined` on `undefined` and `null`. -/
def optMember (v : JSVal) (k : String) : JSVal :=
  if v.isNullish then undefined else v.getField k

/-- The operator `a || b`. -/
def orElse (a b : JSVal) : JSVal :=
  if a.truthy then a else b

/-- Whether a property list has an own property named `k`. -/
def hasKey (k : String) (fs : List (String × JSVal)) : Bool :=
  fs.any (fun kv => kv.1 == k)

mutual
/-- ToString.  A Number renders as its string form.  Arrays are joined with `,`
(`Array.prototype.join`); an object
without an own `toString` member renders through `Object.prototype.toString`;
an object with an own `toString` member (never callable in this fragment)
cannot be converted to a primitive and the conversion throws a TypeError
(`none`). -/
def toStr : JSVal → Option String
  | undefined => some "undefined"
  | null => some "null"
  | bool b => some (if b then "true" else "false")
  | num n => some n.text
  | str s => some s
  | arr items => joinItems items
  | obj fs => if hasKey "toString" fs then none else some "[object Object]"
/-- The method `Array.prototype.join(',')`: `undefined` and `null` elements render as the
empty string, every other element through ToString. -/
def joinItems : List JSVal → Option String
  | [] => some ""
  | [x] => if x.isNullish then some "" else toStr x
  | x :: y :: rest =>
    match (if x.isNullish then some "" else toStr x), joinItems (y :: rest) with
    | some a, some b => some (a ++ "," ++ b)
    | _, _ => none
end

end JSVal

open JSVal

/-! ## `parseInt(v, 10)` -/

/-- StrWhiteSpaceChar of ECMAScript: white space and line terminators. -/
def isStrWhiteSpaceChar (c : Char) : Bool :=
  let n := c.toNat
  n == 0x09 || n == 0x0A || n == 0x0B || n == 0x0C || n == 0x0D || n == 0x20 ||
  n == 0xA0 || n == 0x1680 || (0x2000 ≤ n && n ≤ 0x200A) || n == 0x2028 ||
  n == 0x2029 || n == 0x202F || n == 0x205F || n == 0x3000 || n == 0xFEFF

/-- Strips an optional sign: the flag is `true` for a leading `-`. -/
def splitSign : List Char → Bool × List Char
  | '-' :: rest => (true, rest)
  | '+' :: rest => (false, rest)
  | cs => (false, cs)

/-- Value of a run of decimal digits, most significant first. -/
def digitsValue (ds : List Char) : Nat :=
  ds.foldl (fun acc c => 10 * acc + (c.toNat - 48)) 0

/-- The function `parseInt(s, 10)` on a string: leading white space is skipped, an
optional sign is read, then the longest run of decimal digits; no digit gives
`NaN`, and whatever follows the digits is ignored.  The result is the Number
nearest to the integer read, negated after a `-` sign. -/
def parseIntStr (s : String) : JSNum :=
  let sr := splitSign (s.toList.dropWhile isStrWhiteSpaceChar)
  let ds := sr.2.takeWhile Char.isDigit
  if ds.isEmpty then JSNum.nan
  else if sr.1 && digitsValue ds != 0 then ⟨"-" ++ renderNat (digitsValue ds)⟩
  else JSNum.ofNat (digitsValue ds)

/-- The function `parseInt(v, 10)`: the argument is first converted with ToString
(which may throw), then parsed. -/
def parseInt (v : JSVal) : Option JSVal :=
  (toStr v).map (fun s => num (parseIntStr s))

/-! ## `JSON.stringify` and `String.prototype.slice` -/

/-- The double quote character. -/
def dquote : Char := Char.ofNat 0x22

/-- The backslash character. -/
def backslash : Char := Char.ofNat 0x5C

/-- One hexadecimal digit, lower case. -/
def hexDigit (n : Nat) : Char :=
  if n < 10 then Char.ofNat (48 + n) else Char.ofNat (87 + n)

/-- QuoteJSONString on one character: the quote, the backslash and the control
characters are escaped, everything else is copied. -/
def escapeChar (c : Char) : List Char :=
  let n := c.toNat
  if n == 0x22 then [backslash, dquote]
  else if n == 0x5C then [backslash, backslash]
  else if n == 0x08 then [backslash, 'b']
  else if n == 0x09 then [backslash, 't']
  else if n == 0x0A then [backslash, 'n']
  else if n == 0x0C then [backslash, 'f']
  else if n == 0x0D then [backslash, 'r']
  else if n < 0x20 then [backslash, 'u', '0', '0', hexDigit (n / 16), hexDigit (n % 16)]
  else [c]

/-- QuoteJSONString: the string between double quotes, escaped. -/
def quoteJSON (s : String) : String :=
  String.mk (dquote :: (s.toList.flatMap escapeChar ++ [dquote]))

mutual
/-- The function `JSON.stringify(v)`; `none` is the result `undefined`.  A Number that is not
finite is serialised as `null`, an `undefined` array element as `null`, and an
`undefined` property is left out. -/
def stringify : JSVal → Option String
  | JSVal.undefined => none
  | JSVal.null => some "null"
  | JSVal.bool b => some (if b then "true" else "false")
  | JSVal.num n =>
    some (if n.text == "NaN" || n.text == "Infinity" || n.text == "-Infinity" then "null"
      else n.text)
  | JSVal.str s => some (quoteJSON s)
  | JSVal.arr items => some ("[" ++ String.intercalate "," (stringifyItems items) ++ "]")
  | JSVal.obj fs => some ("\x7b" ++ String.intercalate "," (stringifyFields fs) ++ "\x7d")
/-- Serialised elements of an array. -/
def stringifyItems : List JSVal → List String
  | [] => []
  | x :: rest => (stringify x).getD "null" :: stringifyItems rest
/-- Serialised members of an object. -/
def stringifyFields : List (String × JSVal) → List String
  | [] => []
  | (k, v) :: rest =>
    match stringify v with
    | none => stringifyFields rest
    | some t => (quoteJSON k ++ ":" ++ t) :: stringifyFields rest
end

/-- UTF-16 code units of a character: one unit below `0x10000`, a surrogate
pair above. -/
def utf16Char (c : Char) : List Nat :=
  if c.toNat < 0x10000 then [c.toNat]
  else [0xD800 + (c.toNat - 0x10000) / 0x400, 0xDC00 + (c.toNat - 0x10000) % 0x400]

/-- The UTF-16 code units of a string: what `length` counts and `slice` cuts. -/
def utf16 (s : String) : List Nat :=
  s.toList.flatMap utf16Char

/-- The call `s.slice(0, n)` on the code units of `s`: the first `n` units (all
of them when `s` is shorter). -/
def slice0 (n : Nat) (units : List Nat) : List Nat :=
  units.take n

/-! ## Responses and `relayError` -/

/-- What a handler hands to the response object: `res.status(c).json(v)` or
`res.sendStatus(c)`, which sends no data of the handler. -/
inductive Sent where
  | json (v : JSVal)
  | statusOnly
  deriving DecidableEq

/-- The answer to the caller: status code and body. -/
structure Response where
  status : JSVal
  body : Sent
  deriving DecidableEq

/-- The record written by `console.error('[Upstream error]', ...)`; the text
of `upstream` is held as UTF-16 code units. -/
structure LogRecord where
  status : JSVal
  message : JSVal
  upstream : List Nat
  deriving DecidableEq

/-- The effect of a handler once its upstream call has settled: the answer, and
the error record it logged, if any. -/
structure Handled where
  response : Response
  logged : Option LogRecord
  deriving DecidableEq

/-- The `upstream` member of the log record:
`typeof data === 'string' ? data : JSON.stringify(data).slice(0, 500)`.
Calling `.slice` on the result `undefined` of `JSON.stringify` would throw
(`none`). -/
def upstreamText (data : JSVal) : Option (List Nat) :=
  match data with
  | str s => some (utf16 s)
  | d => (stringify d).map fun t => slice0 500 (utf16 t)

/-- The helper `relayError(res, err)` of the source.
```
const status = err?.response?.status || 500;
const data = err?.response?.data || { error: err.message || 'Server error' };
console.error('[Upstream error]', { status, message: err?.message, upstream: ... });
res.status(status).json(data);
```
`none` is a TypeError thrown by the helper itself (the unguarded `err.message`
on `undefined` or `null`). -/
def relayError (err : JSVal) : Option Handled :=
  let status := orElse ((err.optMember "response").optMember "status") (lit 500)
  let upstreamData := (err.optMember "response").optMember "data"
  (if upstreamData.truthy then some upstreamData
   else (err.member "message").map
     (fun m => obj [("error", orElse m (str "Server error"))])).bind fun data =>
  (upstreamText data).map fun text =>
    { response := { status := status, body := Sent.json data },
      logged := some { status := status, message := err.optMember "message", upstream := text } }

/-! ## Route table -/

/-- The sixteen relay routes, in source order. -/
inductive Route where
  | getProducts
  | getProduct
  | getProductStyles
  | getProductRelated
  | getQuestions
  | getAnswers
  | postQuestion
  | postAnswer
  | putQuestionHelpful
  | putAnswerHelpful
  | putAnswerReport
  | postReviews
  | putReviewHelpful
  | putReviewReport
  | postAddReview
  | getReviewsMeta
  deriving DecidableEq

/-- Method of an upstream call (`axios.get`, `axios.post`, `axios.put`). -/
inductive Method where
  | GET
  | POST
  | PUT
  deriving DecidableEq

/-- One outbound call: method, URL, the data argument of `axios.post` and
`axios.put` (absent for `axios.get`), and the value of the `authorization`
header. -/
structure UpstreamCall where
  method : Method
  url : String
  data : Option JSVal
  authorization : JSVal
  deriving DecidableEq

/-- The constant `root` of the source. -/
def root : String := "https://app-hrsei-api.herokuapp.com/api/fec2/hr-rpp"

/-- How an upstream call settles: fulfilled with a response `r` (its status and
its `data`), or rejected with a reason `err`. -/
inductive Settled where
  | fulfilled (status : JSVal) (data : JSVal)
  | rejected (err : JSVal)
  deriving DecidableEq

/-! ## `POST /addReview`: coercion of the characteristics -/

/-- Assignment `o[k] = v` on a property list: the own property `k` is
overwritten in place, or created at the end when it does not exist. -/
def setField (k : String) (v : JSVal) : List (String × JSVal) → List (String × JSVal)
  | [] => [(k, v)]
  | (k', w) :: rest => if k' = k then (k, v) :: rest else (k', w) :: setField k v rest

/-- One iteration of the loop on an object:
`cs[k] = parseInt(cs[k], 10)`. -/
def coerceKey (cs : List (String × JSVal)) (k : String) : Option (List (String × JSVal)) :=
  (parseInt ((lookup k cs).getD undefined)).map fun n => setField k n cs

/-- One iteration of the loop on an array, at index `i`. -/
def coerceIndex (items : List JSVal) (i : Nat) : Option (List JSVal) :=
  (parseInt (items.getD i undefined)).map fun n => items.set i n

/-- The loop `for (const k in cs) cs[k] = parseInt(cs[k], 10)`.  The keys are
those of `cs` when the loop starts: the property names of an object, the
indices of an array.  A string is enumerated by index, but an assignment to a
member of a primitive is ignored (the module is not in strict mode) and the
parse of a single character cannot throw; numbers and `true` have no
enumerable member. -/
def coerceCharacteristics : JSVal → Option JSVal
  | obj fs => ((fs.map Prod.fst).foldlM coerceKey fs).map obj
  | arr items => ((List.range items.length).foldlM coerceIndex items).map arr
  | v => some v

/-- The review once the loop has run: the loop mutates the object held by the
member `characteristics` in place, so that member of the review now holds the
coerced values `cs`. -/
def putCharacteristics (review cs : JSVal) : JSVal :=
  match review with
  | JSVal.obj rf => obj (setField "characteristics" cs rf)
  | r => r

/-- The payload forwarded by `POST /addReview`.
```
const { review } = req.body || {};
if (review && review.characteristics) { for (const k in review.characteristics) ... }
axios.post(`${root}/reviews`, review, headers)
```
`none`: the loop throws. -/
def addReviewPayload (body : JSVal) : Option JSVal :=
  let review := (orElse body (obj [])).getField "review"
  if review.truthy && (review.getField "characteristics").truthy then
    (coerceCharacteristics (review.getField "characteristics")).map
      (putCharacteristics review)
  else some review

/-! ## Handlers -/

/-- The count of `POST /reviews/:product_id`: `req.body?.count || 50`. -/
def reviewsCount (body : JSVal) : JSVal :=
  orElse (body.optMember "count") (lit 50)

/-- The upstream call issued by the handler of a route, for the path parameter
`p` (`req.params.*`, unused by the three routes without one) and the request
body; `token` is `process.env.TOKEN`.  `none`: the handler throws before
calling upstream. -/
def issue (token : JSVal) (r : Route) (p : String) (body : JSVal) : Option UpstreamCall :=
  match r with
  | Route.getProducts => some ⟨Method.GET, root ++ "/products?count=20", none, token⟩
  | Route.getProduct => some ⟨Method.GET, root ++ "/products/" ++ p, none, token⟩
  | Route.getProductStyles => some ⟨Method.GET, root ++ "/products/" ++ p ++ "/styles", none, token⟩
  | Route.getProductRelated =>
    some ⟨Method.GET, root ++ "/products/" ++ p ++ "/related", none, token⟩
  | Route.getQuestions =>
    some ⟨Method.GET, root ++ "/qa/questions/?product_id=" ++ p ++ "&count=50", none, token⟩
  | Route.getAnswers =>
    some ⟨Method.GET, root ++ "/qa/questions/" ++ p ++ "/answers?count=50", none, token⟩
  | Route.postQuestion => some ⟨Method.POST, root ++ "/qa/questions", some body, token⟩
  | Route.postAnswer =>
    some ⟨Method.POST, root ++ "/qa/questions/" ++ p ++ "/answers", some body, token⟩
  | Route.putQuestionHelpful =>
    some ⟨Method.PUT, root ++ "/qa/questions/" ++ p ++ "/helpful", some (obj []), token⟩
  | Route.putAnswerHelpful =>
    some ⟨Method.PUT, root ++ "/qa/answers/" ++ p ++ "/helpful", some (obj []), token⟩
  | Route.putAnswerReport =>
    some ⟨Method.PUT, root ++ "/qa/answers/" ++ p ++ "/report", some (obj []), token⟩
  | Route.postReviews =>
    (toStr (reviewsCount body)).map fun c =>
      ⟨Method.GET, root ++ "/reviews/?product_id=" ++ p ++ "&count=" ++ c, none, token⟩
  | Route.putReviewHelpful =>
    some ⟨Method.PUT, root ++ "/reviews/" ++ p ++ "/helpful", some (obj []), token⟩
  | Route.putReviewReport =>
    some ⟨Method.PUT, root ++ "/reviews/" ++ p ++ "/report", some (obj []), token⟩
  | Route.postAddReview =>
    (addReviewPayload body).map fun review =>
      ⟨Method.POST, root ++ "/reviews", some review, token⟩
  | Route.getReviewsMeta =>
    some ⟨Method.GET, root ++ "/reviews/meta?product_id=" ++ p, none, token⟩

/-- The `.then` callback of a route, applied to the data of the upstream
response. -/
def onSuccess (r : Route) (data : JSVal) : Response :=
  match r with
  | Route.getProducts => ⟨lit 200, Sent.json data⟩
  | Route.getProduct => ⟨lit 200, Sent.json data⟩
  | Route.getProductStyles => ⟨lit 200, Sent.json data⟩
  | Route.getProductRelated => ⟨lit 200, Sent.json data⟩
  | Route.getQuestions => ⟨lit 200, Sent.json data⟩
  | Route.getAnswers => ⟨lit 200, Sent.json data⟩
  | Route.postQuestion => ⟨lit 201, Sent.json data⟩
  | Route.postAnswer => ⟨lit 201, Sent.json data⟩
  | Route.putQuestionHelpful => ⟨lit 204, Sent.json data⟩
  | Route.putAnswerHelpful => ⟨lit 204, Sent.json data⟩
  | Route.putAnswerReport => ⟨lit 204, Sent.json data⟩
  | Route.postReviews => ⟨lit 200, Sent.json data⟩
  | Route.putReviewHelpful => ⟨lit 200, Sent.json (str "updated helpful")⟩
  | Route.putReviewReport => ⟨lit 204, Sent.statusOnly⟩
  | Route.postAddReview => ⟨lit 201, Sent.json (str "added!")⟩
  | Route.getReviewsMeta => ⟨lit 200, Sent.json data⟩

/-- The answer of a route once its upstream call has settled:
`.then(r => ...)` on success, `.catch(err => relayError(res, err))` on failure.
`none`: no answer is sent (the failure path itself threw). -/
def respond (r : Route) : Settled → Option Handled
  | Settled.fulfilled _ data => some { response := onSuccess r data, logged := none }
  | Settled.rejected err => relayError err

/-- The upstream calls made while handling one request. -/
def upstreamCalls (token : JSVal) (r : Route) (p : String) (body : JSVal) : List UpstreamCall :=
  (issue token r p body).toList

/-- A whole relay handler: the call it issues and the answer it gives when the
call settles as `s`. -/
def handle (token : JSVal) (r : Route) (p : String) (body : JSVal) (s : Settled) :
    Option (UpstreamCall × Option Handled) :=
  (issue token r p body).map fun call => (call, respond r s)

/-! ## `POST /upload` -/

/-- How one `cloudinary.uploader.upload(img)` promise settles. -/
inductive UploadOutcome where
  | resolved (result : JSVal)
  | rejected (reason : JSVal)
  deriving DecidableEq

/-- State of the promise returned by `Promise.all`: still waiting (one slot per
input promise, filled as the inputs are fulfilled), fulfilled with the array of
values, or rejected. -/
inductive AllState where
  | pending (slots : List (Option JSVal))
  | fulfilled (values : List JSVal)
  | rejected (reason : JSVal)
  deriving DecidableEq

/-- The call `Promise.all` on `n` promises: an empty input is fulfilled with `[]` at once. -/
def promiseAllStart (n : Nat) : AllState :=
  if n = 0 then AllState.fulfilled [] else AllState.pending (List.replicate n none)

/-- Input promise `i` settles.  While `Promise.all` is pending, a fulfilment
stores the value in slot `i` and fulfils the whole once every slot is filled;
a rejection rejects the whole with the same reason.  Once `Promise.all` has
settled, later settlements are ignored. -/
def promiseAllSettle (outcomes : List UploadOutcome) (st : AllState) (i : Nat) : AllState :=
  match st with
  | AllState.pending slots =>
    match outcomes[i]? with
    | some (UploadOutcome.resolved v) =>
      if (slots.set i (some v)).all Option.isSome
      then AllState.fulfilled ((slots.set i (some v)).filterMap id)
      else AllState.pending (slots.set i (some v))
    | some (UploadOutcome.rejected e) => AllState.rejected e
    | none => AllState.pending slots
  | settled => settled

/-- The promise `Promise.all(promises)` after the input promises have settled in the order
`order` (a list of input positions, earliest first). -/
def promiseAll (outcomes : List UploadOutcome) (order : List Nat) : AllState :=
  order.foldl (promiseAllSettle outcomes) (promiseAllStart outcomes.length)

/-- The batch of `POST /upload`:
`Array.isArray(req.body?.images) ? req.body.images : []`. -/
def uploadImages (body : JSVal) : List JSVal :=
  match body.optMember "images" with
  | JSVal.arr items => items
  | _ => []

/-- Outcome of every upload of a batch: `uploader i img` is how call number `i`,
made on image `img`, settles. -/
def uploadOutcomes (uploader : Nat → JSVal → UploadOutcome) (images : List JSVal) :
    List UploadOutcome :=
  List.zipWith uploader (List.range images.length) images

/-- A run of the upload handler: the images passed to
`cloudinary.uploader.upload`, one call each, and the answer (`none`: no answer
is sent). -/
structure UploadRun where
  calls : List JSVal
  answer : Option Handled
  deriving DecidableEq

/-- The handler of `POST /upload`.
```
Promise.all(images.map(img => cloudinary.uploader.upload(img)))
  .then(results => res.status(201).json(results))
  .catch(err => relayError(res, err));
```
-/
def upload (uploader : Nat → JSVal → UploadOutcome) (order : List Nat) (body : JSVal) :
    UploadRun :=
  { calls := uploadImages body,
    answer :=
      match promiseAll (uploadOutcomes uploader (uploadImages body)) order with
      | AllState.fulfilled results =>
        some { response := ⟨lit 201, Sent.json (arr results)⟩, logged := none }
      | AllState.rejected err => relayError err
      | AllState.pending _ => none }

/-! ## Summary of a run of `Promise.all` -/

/-- The value of a fulfilled upload. -/
def UploadOutcome.valueOf : UploadOutcome → Option JSVal
  | UploadOutcome.resolved v => some v
  | UploadOutcome.rejected _ => none

/-- The reason of a rejected upload. -/
def UploadOutcome.reasonOf : UploadOutcome → Option JSVal
  | UploadOutcome.resolved _ => none
  | UploadOutcome.rejected e => some e

/-- The reason of the first rejected upload among the positions `done`, taken
in settle order. -/
def firstRejection (outcomes : List UploadOutcome) (done : List Nat) : Option JSVal :=
  done.findSome? fun i => outcomes[i]?.bind UploadOutcome.reasonOf

/-- The slots of `Promise.all` once the positions `done` have been fulfilled. -/
def slotsAfter (outcomes : List UploadOutcome) (done : List Nat) : List (Option JSVal) :=
  (List.range outcomes.length).map fun j =>
    if j ∈ done then outcomes[j]?.bind UploadOutcome.valueOf else none

/-- Whether each of the `n` input promises is among the settled positions. -/
def allSettled (n : Nat) (done : List Nat) : Bool :=
  (List.range n).all fun j => decide (j ∈ done)

/-- The state of `Promise.all` described from the settled positions: rejected
with the first rejection if there is one, otherwise fulfilled with all the
values in input order once every input has settled, otherwise pending. -/
def joinState (outcomes : List UploadOutcome) (done : List Nat) : AllState :=
  match firstRejection outcomes done with
  | some e => AllState.rejected e
  | none =>
    if allSettled outcomes.length done
    then AllState.fulfilled (outcomes.filterMap UploadOutcome.valueOf)
    else AllState.pending (slotsAfter outcomes done)

/-! ## The route table of the specification -/

/-- Body column of the route table: the upstream body is forwarded, a fixed
string is sent, or nothing is sent. -/
inductive BodyPolicy where
  | forward
  | fixed (text : String)
  | empty
  deriving DecidableEq

/-- Status column of the route table (section 4.1 of the specification). -/
def tableStatus : Route → Nat
  | Route.getProducts => 200
  | Route.getProduct => 200
  | Route.getProductStyles => 200
  | Route.getProductRelated => 200
  | Route.getQuestions => 200
  | Route.getAnswers => 200
  | Route.postQuestion => 201
  | Route.postAnswer => 201
  | Route.putQuestionHelpful => 204
  | Route.putAnswerHelpful => 204
  | Route.putAnswerReport => 204
  | Route.postReviews => 200
  | Route.putReviewHelpful => 200
  | Route.putReviewReport => 204
  | Route.postAddReview => 201
  | Route.getReviewsMeta => 200

/-- Body column of the route table (section 4.1 of the specification). -/
def tableBody : Route → BodyPolicy
  | Route.putReviewHelpful => BodyPolicy.fixed "updated helpful"
  | Route.putReviewReport => BodyPolicy.empty
  | Route.postAddReview => BodyPolicy.fixed "added!"
  | _ => BodyPolicy.forward

/-- The body a policy produces from the upstream body `B`. -/
def BodyPolicy.render : BodyPolicy → JSVal → Sent
  | BodyPolicy.forward, B => Sent.json B
  | BodyPolicy.fixed text, _ => Sent.json (JSVal.str text)
  | BodyPolicy.empty, _ => Sent.statusOnly

/-- Upstream method of the route table. -/
def tableMethod : Route → Method
  | Route.getProducts => Method.GET
  | Route.getProduct => Method.GET
  | Route.getProductStyles => Method.GET
  | Route.getProductRelated => Method.GET
  | Route.getQuestions => Method.GET
  | Route.getAnswers => Method.GET
  | Route.postQuestion => Method.POST
  | Route.postAnswer => Method.POST
  | Route.putQuestionHelpful => Method.PUT
  | Route.putAnswerHelpful => Method.PUT
  | Route.putAnswerReport => Method.PUT
  | Route.postReviews => Method.GET
  | Route.putReviewHelpful => Method.PUT
  | Route.putReviewReport => Method.PUT
  | Route.postAddReview => Method.POST
  | Route.getReviewsMeta => Method.GET

/-- Upstream pattern of the route table as the specification prints it, with
the path parameter `p` and the count `c` substituted. -/
def tablePattern (r : Route) (p c : String) : String :=
  match r with
  | Route.getProducts => "/products?count=20"
  | Route.getProduct => "/products/" ++ p
  | Route.getProductStyles => "/products/" ++ p ++ "/styles"
  | Route.getProductRelated => "/products/" ++ p ++ "/related"
  | Route.getQuestions => "/qa/questions?product_id=" ++ p ++ "&count=50"
  | Route.getAnswers => "/qa/questions/" ++ p ++ "/answers?count=50"
  | Route.postQuestion => "/qa/questions"
  | Route.postAnswer => "/qa/questions/" ++ p ++ "/answers"
  | Route.putQuestionHelpful => "/qa/questions/" ++ p ++ "/helpful"
  | Route.putAnswerHelpful => "/qa/answers/" ++ p ++ "/helpful"
  | Route.putAnswerReport => "/qa/answers/" ++ p ++ "/report"
  | Route.postReviews => "/reviews?product_id=" ++ p ++ "&count=" ++ c
  | Route.putReviewHelpful => "/reviews/" ++ p ++ "/helpful"
  | Route.putReviewReport => "/reviews/" ++ p ++ "/report"
  | Route.postAddReview => "/reviews"
  | Route.getReviewsMeta => "/reviews/meta?product_id=" ++ p

/-- Upstream pattern the handlers use: the printed pattern, except that the two
collection queries carry a slash before the question mark. -/
def sourcePattern (r : Route) (p c : String) : String :=
  match r with
  | Route.getQuestions => "/qa/questions/?product_id=" ++ p ++ "&count=50"
  | Route.postReviews => "/reviews/?product_id=" ++ p ++ "&count=" ++ c
  | other => tablePattern other p c

/-- Whether the handler of a route reaches its upstream call: fourteen routes
always do; the other two convert request data first (the count to a string, the
characteristics to integers), which can throw. -/
def reachesUpstream (r : Route) (body : JSVal) : Bool :=
  match r with
  | Route.postReviews => (toStr (reviewsCount body)).isSome
  | Route.postAddReview => (addReviewPayload body).isSome
  | _ => true

/-- The text of the count in the URL of `POST /reviews/:product_id`. -/
def countText (body : JSVal) : String :=
  (toStr (reviewsCount body)).getD ""

/-! ## Lemmas on values -/

theorem truthy_ne_undefined {v : JSVal} (h : v.truthy = true) : v ≠ JSVal.undefined := by
  intro e
  rw [e] at h
  exact Bool.false_ne_true h

theorem truthy_ne_of_falsy {v w : JSVal} (h : v.truthy = true) (hw : w.truthy = false) :
    v ≠ w := by
  intro e
  rw [e, hw] at h
  exact Bool.false_ne_true h

theorem truthy_not_nullish {v : JSVal} (h : v.truthy = true) : v.isNullish = false := by
  cases v <;> simp_all [JSVal.truthy, JSVal.isNullish]

theorem optMember_of_not_nullish {v : JSVal} (k : String) (h : v.isNullish = false) :
    v.optMember k = v.getField k := by
  simp [JSVal.optMember, h]

theorem member_of_not_nullish {v : JSVal} (k : String) (h : v.isNullish = false) :
    v.member k = some (v.getField k) := by
  simp [JSVal.member, h]

theorem orElse_truthy (a b : JSVal) (hb : b.truthy = true) : (orElse a b).truthy = true := by
  unfold JSVal.orElse
  split <;> assumption

theorem stringify_defined {v : JSVal} (h : v ≠ JSVal.undefined) : ∃ t, stringify v = some t := by
  cases v with
  | undefined => exact absurd rfl h
  | null => exact ⟨_, by rw [stringify]⟩
  | bool b => exact ⟨_, by rw [stringify]⟩
  | num n => exact ⟨_, by rw [stringify]⟩
  | str s => exact ⟨_, by rw [stringify]⟩
  | arr items => exact ⟨_, by rw [stringify]⟩
  | obj fs => exact ⟨_, by rw [stringify]⟩

theorem slice0_length_le (n : Nat) (units : List Nat) : (slice0 n units).length ≤ n := by
  show (units.take n).length ≤ n
  rw [List.length_take]
  exact Nat.min_le_left _ _

theorem utf16_replicate_length (n : Nat) :
    (utf16 (String.mk (List.replicate n 'x'))).length = n := by
  have h : ∀ m, ((List.replicate m 'x').flatMap utf16Char).length = m := by
    intro m
    induction m with
    | zero => rfl
    | succ m ih =>
      rw [List.replicate_succ, List.flatMap_cons, List.length_append, ih]
      have hx : (utf16Char 'x').length = 1 := by decide
      omega
  exact h n

theorem replicate_string_length (n : Nat) (c : Char) :
    (String.mk (List.replicate n c)).length = n :=
  List.length_replicate n c

theorem upstreamText_str (s : String) : upstreamText (JSVal.str s) = some (utf16 s) := rfl

theorem upstreamText_defined {v : JSVal} (h : v.truthy = true) : ∃ t, upstreamText v = some t := by
  obtain ⟨t, ht⟩ := stringify_defined (truthy_ne_undefined h)
  cases v <;> simp_all [upstreamText]

/-- On data that is not a string, the logged text is at most 500 code units
long. -/
theorem upstreamText_json_length_le {v : JSVal} {t : List Nat} (hv : v.isString = false)
    (h : upstreamText v = some t) : t.length ≤ 500 := by
  cases v <;> simp_all [upstreamText, JSVal.isString] <;>
    (obtain ⟨a, _, rfl⟩ := h; exact slice0_length_le 500 _)

/-! ## `relayError` -/

/-- Full description of `relayError` on a rejection reason that is not
`undefined` or `null`: it always answers, and logs one record. -/
theorem relayError_eq (err : JSVal) (herr : err.isNullish = false) :
    ∃ text,
      upstreamText
          (if ((err.getField "response").optMember "data").truthy
           then (err.getField "response").optMember "data"
           else obj [("error", orElse (err.getField "message") (str "Server error"))])
        = some text ∧
      relayError err = some
        { response :=
            { status := orElse ((err.getField "response").optMember "status") (lit 500),
              body := Sent.json
                (if ((err.getField "response").optMember "data").truthy
                 then (err.getField "response").optMember "data"
                 else obj [("error", orElse (err.getField "message") (str "Server error"))]) },
          logged := some
            { status := orElse ((err.getField "response").optMember "status") (lit 500),
              message := err.getField "message",
              upstream := text } } := by
  unfold relayError
  simp only [optMember_of_not_nullish _ herr, member_of_not_nullish _ herr]
  by_cases hd : ((err.getField "response").optMember "data").truthy = true
  · obtain ⟨t, ht⟩ := upstreamText_defined hd
    exact ⟨t, by simp [hd, ht], by simp [hd, ht]⟩
  · have ht : ∃ t, upstreamText
        (obj [("error", orElse (err.getField "message") (str "Server error"))]) = some t :=
      upstreamText_defined rfl
    obtain ⟨t, ht⟩ := ht
    exact ⟨t, by simp [hd, ht], by simp [hd, ht]⟩

/-- On `undefined` and `null` the helper throws: the default of the body reads
the unguarded `err.message`. -/
theorem relayError_nullish (err : JSVal) (herr : err.isNullish = true) : relayError err = none := by
  cases err <;> simp_all [JSVal.isNullish] <;> rfl

/-! ## Error translation -/

/-- C10. `relayError` chooses status and body independently: the status is the
upstream status when it is truthy (present and non-zero) and 500 otherwise; the
body is the upstream body when it is truthy and the envelope
`{ error: message || 'Server error' }` otherwise.  The status sent is never
falsy: never 0, never absent. -/
theorem relayError_status_body_independent (err : JSVal) (herr : err.isNullish = false) :
    ∃ h, relayError err = some h ∧
      h.response.status =
        (if ((err.optMember "response").optMember "status").truthy
         then (err.optMember "response").optMember "status" else lit 500) ∧
      h.response.body = Sent.json
        (if ((err.optMember "response").optMember "data").truthy
         then (err.optMember "response").optMember "data"
         else obj [("error",
           if (err.optMember "message").truthy then err.optMember "message"
           else str "Server error")]) ∧
      h.response.status.truthy = true ∧
      h.response.status ≠ lit 0 ∧ h.response.status ≠ JSVal.undefined ∧
      h.response.status ≠ JSVal.null := by
  obtain ⟨text, _, heq⟩ := relayError_eq err herr
  have hst : (orElse ((err.getField "response").optMember "status") (lit 500)).truthy = true :=
    orElse_truthy _ _ rfl
  refine ⟨_, heq, ?_, ?_, ?_, ?_, ?_, ?_⟩
  · simp [optMember_of_not_nullish _ herr, JSVal.orElse]
  · simp [optMember_of_not_nullish _ herr, JSVal.orElse]
  · exact hst
  · exact truthy_ne_of_falsy hst rfl
  · exact truthy_ne_of_falsy hst rfl
  · exact truthy_ne_of_falsy hst rfl

/-- Witness of C10: upstream status 404 without a body is answered with 404 and
the envelope. -/
theorem relayError_status_body_independent_witness :
    (obj [("message", str "Not Found"), ("response", obj [("status", lit 404)])]).isNullish = false ∧
    ∃ h, relayError
        (obj [("message", str "Not Found"), ("response", obj [("status", lit 404)])]) = some h ∧
      h.response.status = lit 404 ∧
      h.response.body = Sent.json (obj [("error", str "Not Found")]) ∧
      h.response.status.truthy = true ∧
      h.response.status ≠ lit 0 ∧ h.response.status ≠ JSVal.undefined ∧
      h.response.status ≠ JSVal.null :=
  ⟨by decide, relayError_status_body_independent
    (obj [("message", str "Not Found"), ("response", obj [("status", lit 404)])]) (by decide)⟩

/-- C1, as stated, fails: an upstream response with status 404 and an empty
body is answered with status 404 and the envelope built from the failure
message, not with the empty body. -/
theorem relay_empty_body_not_relayed :
    (respond Route.getProducts (Settled.rejected
        (obj [("message", str "Request failed with status code 404"),
              ("response", obj [("status", lit 404), ("data", str "")])]))).map
        (fun h => h.response)
      = some ⟨lit 404, Sent.json (obj [("error", str "Request failed with status code 404")])⟩ ∧
    (respond Route.getProducts (Settled.rejected
        (obj [("message", str "Request failed with status code 404"),
              ("response", obj [("status", lit 404), ("data", str "")])]))).map
        (fun h => h.response)
      ≠ some ⟨lit 404, Sent.json (str "")⟩ := by
  decide

/-- C1, amended. For every route and every failure whose upstream response has
a truthy status `E` and a truthy body `D`, the caller is answered with exactly
status `E` and exactly body `D`. -/
theorem relay_upstream_status_and_body (r : Route) (err E D : JSVal)
    (hs : (err.optMember "response").optMember "status" = E)
    (hd : (err.optMember "response").optMember "data" = D)
    (hE : E.truthy = true) (hD : D.truthy = true) :
    ∃ h, respond r (Settled.rejected err) = some h ∧ h.response = ⟨E, Sent.json D⟩ := by
  have herr : err.isNullish = false := by
    cases err <;> first | rfl | (rw [← hd] at hD; exact absurd hD (by decide))
  obtain ⟨text, _, heq⟩ := relayError_eq err herr
  rw [optMember_of_not_nullish _ herr] at hs hd
  refine ⟨_, heq, ?_⟩
  simp [hs, hd, hE, hD, JSVal.orElse]

/-- Witness of the amended C1: status 422 with a JSON body. -/
theorem relay_upstream_status_and_body_witness :
    (lit 422).truthy = true ∧ (obj [("reason", str "invalid")]).truthy = true ∧
    ∃ h, respond Route.postQuestion (Settled.rejected
        (obj [("message", str "Request failed with status code 422"),
              ("response", obj [("status", lit 422),
                                ("data", obj [("reason", str "invalid")])])])) = some h ∧
      h.response = ⟨lit 422, Sent.json (obj [("reason", str "invalid")])⟩ :=
  ⟨by decide, by decide,
    relay_upstream_status_and_body Route.postQuestion _ (lit 422)
      (obj [("reason", str "invalid")]) (by decide) (by decide) (by decide) (by decide)⟩

/-- C2. For every route and every failure without an upstream response, the
caller is answered with status 500 and `{ error: m }`, where `m` is the
message of the failure when it has a (truthy) one and `'Server error'`
otherwise. -/
theorem relay_without_response (r : Route) (err : JSVal) (herr : err.isNullish = false)
    (hresp : (err.optMember "response").isNullish = true) :
    ∃ h, respond r (Settled.rejected err) = some h ∧
      h.response = ⟨lit 500, Sent.json (obj [("error",
        if (err.optMember "message").truthy then err.optMember "message"
        else str "Server error")])⟩ := by
  obtain ⟨text, _, heq⟩ := relayError_eq err herr
  rw [optMember_of_not_nullish _ herr] at hresp ⊢
  refine ⟨_, heq, ?_⟩
  have h1 : ∀ k, (err.getField "response").optMember k = JSVal.undefined := by
    intro k
    simp [JSVal.optMember, hresp]
  simp [h1, JSVal.orElse, JSVal.truthy]

/-- Witness of C2: a connection failure with a message, and a rejection
without one. -/
theorem relay_without_response_witness :
    (∃ h, respond Route.getProduct (Settled.rejected
        (obj [("message", str "connect ECONNREFUSED")])) = some h ∧
      h.response = ⟨lit 500, Sent.json (obj [("error", str "connect ECONNREFUSED")])⟩) ∧
    (∃ h, respond Route.getProduct (Settled.rejected (obj [("code", str "ETIMEDOUT")])) = some h ∧
      h.response = ⟨lit 500, Sent.json (obj [("error", str "Server error")])⟩) :=
  ⟨relay_without_response Route.getProduct (obj [("message", str "connect ECONNREFUSED")])
      (by decide) (by decide),
   relay_without_response Route.getProduct (obj [("code", str "ETIMEDOUT")])
      (by decide) (by decide)⟩

/-- C8 on the code: a raw-text upstream body is logged whole.  For every
non-empty string body `s` the `upstream` member of the record is `s` itself
(all its code units), whatever its length; with a body of 501 characters the
record holds 501 code units.  The status of the record is the status sent. -/
theorem relay_logs_raw_text_whole :
    (∀ (fs : List (String × JSVal)) (s : String), s ≠ "" →
      (JSVal.obj fs).getField "response" = obj [("status", lit 502), ("data", str s)] →
      ∃ h, relayError (obj fs) = some h ∧
        h.logged.map (fun l => l.upstream) = some (utf16 s) ∧
        h.logged.map (fun l => l.status) = some h.response.status) ∧
    (∃ h, relayError (obj [("response", obj [("status", lit 502),
          ("data", str (String.mk (List.replicate 501 'x')))])]) = some h ∧
      h.logged.map (fun l => l.upstream.length) = some 501) := by
  have key : ∀ (fs : List (String × JSVal)) (s : String), s ≠ "" →
      (JSVal.obj fs).getField "response" = obj [("status", lit 502), ("data", str s)] →
      ∃ h, relayError (obj fs) = some h ∧
        h.logged.map (fun l => l.upstream) = some (utf16 s) ∧
        h.logged.map (fun l => l.status) = some h.response.status := by
    intro fs s hs hr
    obtain ⟨text, htext, heq⟩ := relayError_eq (obj fs) rfl
    have hd : (obj [("status", lit 502), ("data", str s)]).optMember "data" = str s := by
      simp [JSVal.optMember, JSVal.isNullish, JSVal.getField, JSVal.lookup]
    have ht : (JSVal.str s).truthy = true := by simp [JSVal.truthy, hs]
    rw [hr, hd] at htext
    simp only [ht, if_true, upstreamText_str, Option.some.injEq] at htext
    refine ⟨_, heq, ?_, ?_⟩
    · simp [htext]
    · simp
  refine ⟨key, ?_⟩
  have gen : ∀ t : String, t ≠ "" →
      ∃ h, relayError (obj [("response", obj [("status", lit 502), ("data", str t)])]) = some h ∧
        h.logged.map (fun l => l.upstream.length) = some (utf16 t).length := by
    intro t ht
    obtain ⟨h, h1, h2, _⟩ := key [("response", obj [("status", lit 502), ("data", str t)])] t ht
      (by simp [JSVal.getField, JSVal.lookup])
    refine ⟨h, h1, ?_⟩
    cases hl : h.logged with
    | none => simp [hl] at h2
    | some l =>
      simp only [hl, Option.map_some', Option.some.injEq] at h2 ⊢
      rw [h2]
  have hne : String.mk (List.replicate 501 'x') ≠ "" := by
    intro e
    have hlen := congrArg String.length e
    rw [replicate_string_length] at hlen
    exact absurd hlen (by decide)
  have h501 := gen (String.mk (List.replicate 501 'x')) hne
  rw [utf16_replicate_length] at h501
  exact h501

/-! ## Success path and upstream calls -/

/-- C3. For each of the sixteen routes and every successful upstream response
with status `S` and body `B`, the answer has the status of the route's table
row, whatever `S`, and the body given by the row's policy: `B` on a forward
row, the fixed string on the two fixed rows, nothing on the empty row; nothing
is logged. -/
theorem success_follows_route_table (r : Route) (S B : JSVal) :
    respond r (Settled.fulfilled S B) =
      some { response := ⟨lit (tableStatus r), (tableBody r).render B⟩, logged := none } := by
  cases r <;> rfl

/-- C4, as stated, fails: the two collection queries are called with a slash
before the question mark, which the printed patterns do not have; and a count
that has no string form stops the handler before any upstream call. -/
theorem upstream_url_differs_from_printed_pattern :
    (issue (str "T") Route.getQuestions "1" (obj [])).map (fun c => c.url)
      = some (root ++ "/qa/questions/?product_id=1&count=50") ∧
    (issue (str "T") Route.getQuestions "1" (obj [])).map (fun c => c.url)
      ≠ some (root ++ tablePattern Route.getQuestions "1" "50") ∧
    (issue (str "T") Route.postReviews "1" (obj [("count", lit 10)])).map (fun c => c.url)
      = some (root ++ "/reviews/?product_id=1&count=10") ∧
    (issue (str "T") Route.postReviews "1" (obj [("count", lit 10)])).map (fun c => c.url)
      ≠ some (root ++ tablePattern Route.postReviews "1" "10") ∧
    upstreamCalls (str "T") Route.postReviews "1"
      (obj [("count", obj [("toString", lit 1)])]) = [] := by
  decide

/-- C4, amended. For every route, path parameter and body, a handler that
reaches its upstream call issues exactly one call, with the method of the
route's row, the configured authorization value, and the URL made of the base
URL and the pattern the source uses (the printed pattern, with
`/qa/questions/?product_id=p&count=50` and `/reviews/?product_id=p&count=c`
for the two collection queries). -/
theorem upstream_call_follows_source_pattern (token : JSVal) (r : Route) (p : String)
    (body : JSVal) (h : reachesUpstream r body = true) :
    ∃ call, upstreamCalls token r p body = [call] ∧
      call.method = tableMethod r ∧
      call.url = root ++ sourcePattern r p (countText body) ∧
      call.authorization = token := by
  cases r
  case postReviews =>
    obtain ⟨c, hc⟩ := Option.isSome_iff_exists.mp h
    refine ⟨⟨Method.GET, root ++ "/reviews/?product_id=" ++ p ++ "&count=" ++ c, none, token⟩,
      ?_, rfl, ?_, rfl⟩
    · simp [upstreamCalls, issue, hc]
    · simp [sourcePattern, countText, hc, String.append_assoc]
  case postAddReview =>
    obtain ⟨c, hc⟩ := Option.isSome_iff_exists.mp h
    refine ⟨⟨Method.POST, root ++ "/reviews", some c, token⟩, ?_, rfl, rfl, rfl⟩
    simp [upstreamCalls, issue, hc]
  all_goals
    refine ⟨_, rfl, rfl, ?_, rfl⟩
    simp [sourcePattern, tablePattern, String.append_assoc]

/-- Witness of the amended C4: the four calls the claim spells out. -/
theorem upstream_call_follows_source_pattern_witness :
    (∃ call, upstreamCalls (str "T") Route.getQuestions "7" (obj []) = [call] ∧
      call.method = Method.GET ∧
      call.url = root ++ "/qa/questions/?product_id=7&count=50" ∧
      call.authorization = str "T") ∧
    (∃ call, upstreamCalls (str "T") Route.postReviews "7" (obj [("count", lit 10)]) = [call] ∧
      call.method = Method.GET ∧
      call.url = root ++ "/reviews/?product_id=7&count=10" ∧
      call.authorization = str "T") ∧
    (∃ call, upstreamCalls (str "T") Route.getProducts "" (obj []) = [call] ∧
      call.method = Method.GET ∧
      call.url = root ++ "/products?count=20" ∧
      call.authorization = str "T") ∧
    (∃ call, upstreamCalls (str "T") Route.getReviewsMeta "7" (obj []) = [call] ∧
      call.method = Method.GET ∧
      call.url = root ++ "/reviews/meta?product_id=7" ∧
      call.authorization = str "T") :=
  ⟨upstream_call_follows_source_pattern (str "T") Route.getQuestions "7" (obj []) (by decide),
   upstream_call_follows_source_pattern (str "T") Route.postReviews "7"
     (obj [("count", lit 10)]) (by decide),
   upstream_call_follows_source_pattern (str "T") Route.getProducts "" (obj []) (by decide),
   upstream_call_follows_source_pattern (str "T") Route.getReviewsMeta "7" (obj []) (by decide)⟩

/-- C6, as stated, fails: a supplied count of 0 is not relayed; the upstream
call carries `count=50`. -/
theorem reviews_count_zero_not_relayed :
    reviewsCount (obj [("count", lit 0)]) = lit 50 ∧
    (issue (str "T") Route.postReviews "7" (obj [("count", lit 0)])).map (fun c => c.url)
      = some (root ++ "/reviews/?product_id=7&count=50") ∧
    (issue (str "T") Route.postReviews "7" (obj [("count", lit 0)])).map (fun c => c.url)
      ≠ some (root ++ "/reviews/?product_id=7&count=0") := by
  decide

/-- C6, amended. For every product id and body of `POST /reviews/:product_id`:
when the supplied `body.count` is truthy it is the count of the upstream call,
in its string form (the string form of every Number other than 0 and `NaN`,
the text of a non-empty string); when the body or its count is absent, or the
count is falsy (0, the empty string, `null`, `false`, `NaN`), the count is
50. -/
theorem reviews_count_or_default (token : JSVal) (p : String) (body : JSVal) :
    (∀ c, body.optMember "count" = c → c.truthy = true →
      reviewsCount body = c ∧
      issue token Route.postReviews p body = (toStr c).map fun t =>
        ⟨Method.GET, root ++ "/reviews/?product_id=" ++ p ++ "&count=" ++ t, none, token⟩) ∧
    (∀ x : JSNum, body.optMember "count" = num x → x.text ≠ "0" → x.text ≠ "NaN" →
      issue token Route.postReviews p body = some
        ⟨Method.GET, root ++ "/reviews/?product_id=" ++ p ++ "&count=" ++ x.text,
          none, token⟩) ∧
    (∀ t : String, body.optMember "count" = str t → t ≠ "" →
      issue token Route.postReviews p body = some
        ⟨Method.GET, root ++ "/reviews/?product_id=" ++ p ++ "&count=" ++ t, none, token⟩) ∧
    ((body.optMember "count").truthy = false →
      reviewsCount body = lit 50 ∧
      issue token Route.postReviews p body = some
        ⟨Method.GET, root ++ "/reviews/?product_id=" ++ p ++ "&count=50", none, token⟩) := by
  refine ⟨?_, ?_, ?_, ?_⟩
  · intro c hc ht
    have hcount : reviewsCount body = c := by simp [reviewsCount, JSVal.orElse, hc, ht]
    exact ⟨hcount, by simp [issue, hcount]⟩
  · intro x hx h0 hnan
    have hcount : reviewsCount body = num x := by
      simp [reviewsCount, JSVal.orElse, hx, JSVal.truthy, h0, hnan]
    simp [issue, hcount, toStr]
  · intro t ht hne
    have hcount : reviewsCount body = str t := by
      simp [reviewsCount, JSVal.orElse, ht, JSVal.truthy, hne]
    simp [issue, hcount, toStr]
  · intro hf
    have hcount : reviewsCount body = lit 50 := by simp [reviewsCount, JSVal.orElse, hf]
    refine ⟨hcount, ?_⟩
    have h50 : toStr (lit 50) = some "50" := by decide
    have hcat : "&count=" ++ "50" = "&count=50" := by decide
    simp only [issue, hcount, h50, Option.map_some']
    rw [String.append_assoc _ "&count=" "50", hcat]

/-- Witness of the amended C6: body `{ count: 10 }` relays `count=10`, the
counts 2.5, `2^60` and `10^21` are relayed in their string forms, body `{}`
and a missing body relay `count=50`. -/
theorem reviews_count_or_default_witness :
    issue (str "T") Route.postReviews "7" (obj [("count", lit 10)]) = some
      ⟨Method.GET, root ++ "/reviews/?product_id=7&count=10", none, str "T"⟩ ∧
    issue (str "T") Route.postReviews "7" (obj [("count", num ⟨"2.5"⟩)]) = some
      ⟨Method.GET, root ++ "/reviews/?product_id=7&count=2.5", none, str "T"⟩ ∧
    issue (str "T") Route.postReviews "7" (obj [("count", lit (2 ^ 60))]) = some
      ⟨Method.GET, root ++ "/reviews/?product_id=7&count=1152921504606847000", none, str "T"⟩ ∧
    issue (str "T") Route.postReviews "7" (obj [("count", lit (10 ^ 21))]) = some
      ⟨Method.GET, root ++ "/reviews/?product_id=7&count=1e+21", none, str "T"⟩ ∧
    issue (str "T") Route.postReviews "7" (obj []) = some
      ⟨Method.GET, root ++ "/reviews/?product_id=7&count=50", none, str "T"⟩ ∧
    issue (str "T") Route.postReviews "7" JSVal.undefined = some
      ⟨Method.GET, root ++ "/reviews/?product_id=7&count=50", none, str "T"⟩ :=
  ⟨(reviews_count_or_default (str "T") "7" (obj [("count", lit 10)])).2.1
      (JSNum.ofNat 10) rfl (by decide) (by decide),
   (reviews_count_or_default (str "T") "7" (obj [("count", num ⟨"2.5"⟩)])).2.1
      ⟨"2.5"⟩ rfl (by decide) (by decide),
   (reviews_count_or_default (str "T") "7" (obj [("count", lit (2 ^ 60))])).2.1
      (JSNum.ofNat (2 ^ 60)) rfl (by decide) (by decide),
   (reviews_count_or_default (str "T") "7" (obj [("count", lit (10 ^ 21))])).2.1
      (JSNum.ofNat (10 ^ 21)) rfl (by decide) (by decide),
   ((reviews_count_or_default (str "T") "7" (obj [])).2.2.2 rfl).2,
   ((reviews_count_or_default (str "T") "7" JSVal.undefined).2.2.2 rfl).2⟩

/-! ## Upload relay -/

theorem foldl_settle_fulfilled (outcomes : List UploadOutcome) (values : List JSVal)
    (order : List Nat) :
    order.foldl (promiseAllSettle outcomes) (AllState.fulfilled values)
      = AllState.fulfilled values := by
  induction order with
  | nil => rfl
  | cons i rest ih => exact ih

theorem foldl_settle_rejected (outcomes : List UploadOutcome) (e : JSVal) (order : List Nat) :
    order.foldl (promiseAllSettle outcomes) (AllState.rejected e) = AllState.rejected e := by
  induction order with
  | nil => rfl
  | cons i rest ih => exact ih

/-- C9. When the `images` member of the body is absent or is not an array (a
missing body included), the batch is empty: no upload call is made and the
answer is 201 with an empty array, whatever the uploader. -/
theorem upload_without_images (uploader : Nat → JSVal → UploadOutcome) (order : List Nat)
    (body : JSVal) (h : ∀ items, body.optMember "images" ≠ arr items) :
    upload uploader order body =
      { calls := [],
        answer := some { response := ⟨lit 201, Sent.json (arr [])⟩, logged := none } } := by
  have himg : uploadImages body = [] := by
    unfold uploadImages
    split
    · next items heq => exact absurd heq (h items)
    · rfl
  simp only [upload, himg, uploadOutcomes, promiseAll]
  have hstart : promiseAllStart 0 = AllState.fulfilled [] := rfl
  simp only [List.length_nil, List.range_zero, List.zipWith_nil_left]
  rw [hstart, foldl_settle_fulfilled]

/-- Witness of C9: a missing body, a body without `images`, and `images` that
is a string. -/
theorem upload_without_images_witness :
    upload (fun _ img => UploadOutcome.resolved img) [] JSVal.undefined =
      { calls := [],
        answer := some { response := ⟨lit 201, Sent.json (arr [])⟩, logged := none } } ∧
    upload (fun _ img => UploadOutcome.resolved img) [0, 1] (obj [("images", str "ab")]) =
      { calls := [],
        answer := some { response := ⟨lit 201, Sent.json (arr [])⟩, logged := none } } :=
  ⟨upload_without_images _ [] JSVal.undefined
     (by intro items e; change JSVal.undefined = _ at e; cases e),
   upload_without_images _ [0, 1] (obj [("images", str "ab")])
     (by intro items e; change JSVal.str "ab" = _ at e; cases e)⟩

/-! ## Review coercion -/

theorem lookup_append_of_not_mem (k : String) (pre rest : List (String × JSVal))
    (h : k ∉ pre.map Prod.fst) : JSVal.lookup k (pre ++ rest) = JSVal.lookup k rest := by
  induction pre with
  | nil => rfl
  | cons kv pre ih =>
    obtain ⟨k', v⟩ := kv
    simp only [List.map_cons, List.mem_cons, not_or] at h
    have hne : ¬ k' = k := fun e => h.1 e.symm
    simp [JSVal.lookup, hne, ih h.2]

theorem setField_append_of_not_mem (k : String) (n v : JSVal)
    (pre rest : List (String × JSVal)) (h : k ∉ pre.map Prod.fst) :
    setField k n (pre ++ (k, v) :: rest) = pre ++ (k, n) :: rest := by
  induction pre with
  | nil => simp [setField]
  | cons kv pre ih =>
    obtain ⟨k', w⟩ := kv
    simp only [List.map_cons, List.mem_cons, not_or] at h
    have hne : ¬ k' = k := fun e => h.1 e.symm
    simp [setField, hne, ih h.2]

theorem lookup_setField_of_ne (k k' : String) (v : JSVal) (fs : List (String × JSVal))
    (h : k ≠ k') : JSVal.lookup k (setField k' v fs) = JSVal.lookup k fs := by
  induction fs with
  | nil => simp [setField, JSVal.lookup, Ne.symm h]
  | cons kv fs ih =>
    obtain ⟨k2, w⟩ := kv
    by_cases h2 : k2 = k'
    · subst h2
      simp [setField, JSVal.lookup, Ne.symm h]
    · by_cases h3 : k2 = k
      · subst h3
        simp [setField, JSVal.lookup, h]
      · simp [setField, JSVal.lookup, h2, h3, ih]

theorem keys_setField_of_mem (k : String) (v : JSVal) (fs : List (String × JSVal))
    (h : (JSVal.lookup k fs).isSome = true) :
    (setField k v fs).map Prod.fst = fs.map Prod.fst := by
  induction fs with
  | nil => simp [JSVal.lookup] at h
  | cons kv fs ih =>
    obtain ⟨k2, w⟩ := kv
    by_cases h2 : k2 = k
    · subst h2
      simp [setField]
    · simp only [JSVal.lookup, h2, if_false] at h
      simp [setField, h2, ih h]

/-- The loop over the keys of an object whose keys are distinct replaces every
value by its parse and nothing else. -/
theorem coerce_keys (rest : List (String × JSVal)) :
    ∀ (pre out : List (String × JSVal)),
      (∀ kv ∈ rest, kv.1 ∉ pre.map Prod.fst) → (rest.map Prod.fst).Nodup →
      List.Forall₂ (fun kv kv' => kv'.1 = kv.1 ∧ parseInt kv.2 = some kv'.2) rest out →
      (rest.map Prod.fst).foldlM coerceKey (pre ++ rest) = some (pre ++ out) := by
  induction rest with
  | nil =>
    intro pre out _ _ hall
    cases hall
    rfl
  | cons kv rest ih =>
    intro pre out hpre hnd hall
    obtain ⟨k, v⟩ := kv
    cases hall with
    | cons hhead htail =>
      rename_i kv' out'
      obtain ⟨k', n⟩ := kv'
      obtain ⟨hk, hn⟩ := hhead
      simp only at hk hn
      subst hk
      have hkpre : k' ∉ pre.map Prod.fst := hpre (k', v) (List.mem_cons_self _ _)
      simp only [List.map_cons, List.nodup_cons] at hnd
      have hstep : coerceKey (pre ++ (k', v) :: rest) k' = some (pre ++ (k', n) :: rest) := by
        simp [coerceKey, lookup_append_of_not_mem _ _ _ hkpre, JSVal.lookup, hn,
          setField_append_of_not_mem _ _ _ _ _ hkpre]
      have hpre2 : ∀ kv ∈ rest, kv.1 ∉ (pre ++ [(k', n)]).map Prod.fst := by
        intro kv hkv hmem
        simp only [List.map_append, List.map_cons, List.map_nil, List.mem_append,
          List.mem_singleton] at hmem
        rcases hmem with hmem | hmem
        · exact hpre kv (List.mem_cons_of_mem _ hkv) hmem
        · exact hnd.1 (hmem ▸ List.mem_map_of_mem Prod.fst hkv)
      have hrec := ih (pre ++ [(k', n)]) out' hpre2 hnd.2 htail
      simp only [List.append_assoc, List.singleton_append] at hrec
      simp only [List.map_cons, List.foldlM_cons, hstep, Option.bind_eq_bind, Option.some_bind]
      exact hrec

theorem getD_append_length (pre rest : List JSVal) (v d : JSVal) :
    (pre ++ v :: rest).getD pre.length d = v := by
  induction pre with
  | nil => rfl
  | cons x pre ih => exact ih

theorem set_append_length (pre rest : List JSVal) (v n : JSVal) :
    (pre ++ v :: rest).set pre.length n = pre ++ n :: rest := by
  induction pre with
  | nil => rfl
  | cons x pre ih => simp

/-- The loop over the indices of an array replaces every element by its
parse. -/
theorem coerce_indices (rest : List JSVal) :
    ∀ (pre out : List JSVal),
      List.Forall₂ (fun v n => parseInt v = some n) rest out →
      (List.range' pre.length rest.length).foldlM coerceIndex (pre ++ rest)
        = some (pre ++ out) := by
  induction rest with
  | nil =>
    intro pre out hall
    cases hall
    rfl
  | cons v rest ih =>
    intro pre out hall
    cases hall with
    | cons hhead htail =>
      rename_i n out'
      have hstep : coerceIndex (pre ++ v :: rest) pre.length = some (pre ++ n :: rest) := by
        unfold coerceIndex
        rw [getD_append_length, hhead, Option.map_some', set_append_length]
      have hrec := ih (pre ++ [n]) out' htail
      simp only [List.append_assoc, List.singleton_append, List.length_append,
        List.length_singleton] at hrec
      simp only [List.length_cons, List.range'_succ, List.foldlM_cons, hstep,
        Option.bind_eq_bind, Option.some_bind]
      exact hrec

/-- Values that have a string form have a parse. -/
theorem forall2_parse_of_convertible (fs : List (String × JSVal))
    (h : ∀ kv ∈ fs, (toStr kv.2).isSome = true) :
    ∃ out : List (String × JSVal),
      List.Forall₂ (fun kv kv' => kv'.1 = kv.1 ∧ parseInt kv.2 = some kv'.2) fs out := by
  induction fs with
  | nil => exact ⟨[], List.Forall₂.nil⟩
  | cons kv fs ih =>
    obtain ⟨out, hout⟩ := ih (fun kv' hkv' => h kv' (List.mem_cons_of_mem _ hkv'))
    obtain ⟨t, ht⟩ := Option.isSome_iff_exists.mp (h kv (List.mem_cons_self _ _))
    exact ⟨(kv.1, num (parseIntStr t)) :: out,
      List.Forall₂.cons ⟨rfl, by simp [parseInt, ht]⟩ hout⟩

theorem forall2_parse_items_of_convertible (items : List JSVal)
    (h : ∀ v ∈ items, (toStr v).isSome = true) :
    ∃ out : List JSVal, List.Forall₂ (fun v n => parseInt v = some n) items out := by
  induction items with
  | nil => exact ⟨[], List.Forall₂.nil⟩
  | cons v items ih =>
    obtain ⟨out, hout⟩ := ih (fun w hw => h w (List.mem_cons_of_mem _ hw))
    obtain ⟨t, ht⟩ := Option.isSome_iff_exists.mp (h v (List.mem_cons_self _ _))
    exact ⟨num (parseIntStr t) :: out, List.Forall₂.cons (by simp [parseInt, ht]) hout⟩

theorem setField_same (k : String) (v : JSVal) (fs : List (String × JSVal))
    (h : JSVal.lookup k fs = some v) : setField k v fs = fs := by
  induction fs with
  | nil => simp [JSVal.lookup] at h
  | cons kv fs ih =>
    obtain ⟨k2, w⟩ := kv
    by_cases h2 : k2 = k
    · subst h2
      simp only [JSVal.lookup, if_true, Option.some.injEq] at h
      simp [setField, h]
    · simp only [JSVal.lookup, h2, if_false] at h
      simp [setField, h2, ih h]

/-- The destructuring `const { review } = req.body || {}` reads `req.body?.review`. -/
theorem review_of_body (body : JSVal) :
    (orElse body (obj [])).getField "review" = body.optMember "review" := by
  by_cases ht : body.truthy = true
  · simp [JSVal.orElse, ht, optMember_of_not_nullish _ (truthy_not_nullish ht)]
  · have hfield : body.getField "review" = JSVal.undefined := by
      cases body <;> first | rfl | exact absurd rfl ht
    have hopt : body.optMember "review" = JSVal.undefined := by
      unfold JSVal.optMember
      split
      · rfl
      · exact hfield
    simp only [JSVal.orElse, ht, hopt]
    rfl

theorem lookup_of_getField_truthy {fs : List (String × JSVal)} {k : String} {c : JSVal}
    (h : (JSVal.obj fs).getField k = c) (hc : c.truthy = true) : JSVal.lookup k fs = some c := by
  simp only [JSVal.getField] at h
  cases hl : JSVal.lookup k fs with
  | none =>
    rw [hl] at h
    simp only [Option.getD_none] at h
    rw [← h] at hc
    exact absurd hc (by decide)
  | some w =>
    rw [hl] at h
    simpa using h

/-- C5, as stated, fails: a characteristics value that has no string form (an
object with an own `toString` member) makes `parseInt` throw; the handler
stops and nothing is forwarded upstream. -/
theorem addReview_unconvertible_value_stops_handler :
    addReviewPayload (obj [("review", obj [("characteristics",
      obj [("fit", str "3"), ("size", obj [("toString", lit 1)])])])]) = none ∧
    upstreamCalls (str "T") Route.postAddReview "" (obj [("review", obj [("characteristics",
      obj [("fit", str "3"), ("size", obj [("toString", lit 1)])])])]) = [] := by
  decide

/-- The payload of `POST /addReview`, case by case. -/
theorem addReviewPayload_cases (body : JSVal) :
    (∀ (rf fs : List (String × JSVal)), body.optMember "review" = obj rf →
      (JSVal.obj rf).getField "characteristics" = obj fs →
      (fs.map Prod.fst).Nodup → (∀ kv ∈ fs, (toStr kv.2).isSome = true) →
      ∃ out : List (String × JSVal),
        List.Forall₂ (fun kv kv' => kv'.1 = kv.1 ∧ parseInt kv.2 = some kv'.2) fs out ∧
        addReviewPayload body = some (obj (setField "characteristics" (obj out) rf)) ∧
        (setField "characteristics" (obj out) rf).map Prod.fst = rf.map Prod.fst ∧
        ∀ k, k ≠ "characteristics" →
          JSVal.lookup k (setField "characteristics" (obj out) rf) = JSVal.lookup k rf) ∧
    (∀ (rf : List (String × JSVal)) (items : List JSVal), body.optMember "review" = obj rf →
      (JSVal.obj rf).getField "characteristics" = arr items →
      (∀ v ∈ items, (toStr v).isSome = true) →
      ∃ out : List JSVal,
        List.Forall₂ (fun v n => parseInt v = some n) items out ∧
        addReviewPayload body = some (obj (setField "characteristics" (arr out) rf)) ∧
        (setField "characteristics" (arr out) rf).map Prod.fst = rf.map Prod.fst ∧
        ∀ k, k ≠ "characteristics" →
          JSVal.lookup k (setField "characteristics" (arr out) rf) = JSVal.lookup k rf) ∧
    ((body.optMember "review").truthy = false ∨
      ((body.optMember "review").getField "characteristics").truthy = false ∨
      ((∀ fs, (body.optMember "review").getField "characteristics" ≠ obj fs) ∧
       (∀ items, (body.optMember "review").getField "characteristics" ≠ arr items)) →
      addReviewPayload body = some (body.optMember "review")) ∧
    (body.optMember "review" = JSVal.undefined →
      addReviewPayload body = some JSVal.undefined) := by
  have hunfold : addReviewPayload body =
      if (body.optMember "review").truthy &&
          ((body.optMember "review").getField "characteristics").truthy then
        (coerceCharacteristics ((body.optMember "review").getField "characteristics")).map
          (putCharacteristics (body.optMember "review"))
      else some (body.optMember "review") := by
    simp only [addReviewPayload, review_of_body]
  refine ⟨?_, ?_, ?_, ?_⟩
  · intro rf fs hr hc hnd hconv
    obtain ⟨out, hout⟩ := forall2_parse_of_convertible fs hconv
    have hloop := coerce_keys fs [] out (by simp) hnd hout
    simp only [List.nil_append] at hloop
    have hl : (JSVal.lookup "characteristics" rf).isSome = true := by
      rw [lookup_of_getField_truthy hc rfl]
      rfl
    refine ⟨out, hout, ?_, keys_setField_of_mem _ _ _ hl, ?_⟩
    · rw [hunfold, hr, hc]
      simp [JSVal.truthy, coerceCharacteristics, hloop, putCharacteristics]
    · intro k hk
      exact lookup_setField_of_ne _ _ _ _ hk
  · intro rf items hr hc hconv
    obtain ⟨out, hout⟩ := forall2_parse_items_of_convertible items hconv
    have hloop := coerce_indices items [] out hout
    simp only [List.nil_append, List.length_nil, ← List.range_eq_range'] at hloop
    have hl : (JSVal.lookup "characteristics" rf).isSome = true := by
      rw [lookup_of_getField_truthy hc rfl]
      rfl
    refine ⟨out, hout, ?_, keys_setField_of_mem _ _ _ hl, ?_⟩
    · rw [hunfold, hr, hc]
      simp [JSVal.truthy, coerceCharacteristics, hloop, putCharacteristics]
    · intro k hk
      exact lookup_setField_of_ne _ _ _ _ hk
  · intro h
    rw [hunfold]
    rcases h with h | h | ⟨h1, h2⟩
    · simp [h]
    · simp [h]
    · by_cases ht : ((body.optMember "review").truthy &&
          ((body.optMember "review").getField "characteristics").truthy) = true
      · simp only [ht, if_true]
        simp only [Bool.and_eq_true] at ht
        have hcc : coerceCharacteristics ((body.optMember "review").getField "characteristics")
            = some ((body.optMember "review").getField "characteristics") := by
          cases hv : (body.optMember "review").getField "characteristics" with
          | obj fs => exact absurd hv (h1 fs)
          | arr items => exact absurd hv (h2 items)
          | _ => rfl
        rw [hcc, Option.map_some']
        cases hrv : body.optMember "review" with
        | obj rf =>
          rw [hrv] at ht
          simp only [putCharacteristics]
          rw [setField_same _ _ _ (lookup_of_getField_truthy rfl ht.2)]
        | _ => rfl
      · simp [ht]
  · intro h
    rw [hunfold, h]
    rfl

theorem issue_addReview (token : JSVal) (p : String) (body : JSVal) :
    issue token Route.postAddReview p body =
      (addReviewPayload body).map fun review =>
        ⟨Method.POST, root ++ "/reviews", some review, token⟩ := rfl

/-- C5, amended. For every request body of `POST /addReview` whose
characteristics values all have a string form, the handler calls
`POST <base>/reviews` with the payload `body.review` in which every value
under `review.characteristics` is replaced by its parse `parseInt(v, 10)`: the
keys of the characteristics (the positions, for an array) and every other
member of the review are unchanged.  A review whose characteristics are
absent, falsy or a primitive is forwarded unchanged, and a missing review is
forwarded as `undefined`. -/
theorem addReview_forwards_coerced_review (token : JSVal) (p : String) (body : JSVal) :
    (∀ (rf fs : List (String × JSVal)), body.optMember "review" = obj rf →
      (JSVal.obj rf).getField "characteristics" = obj fs →
      (fs.map Prod.fst).Nodup → (∀ kv ∈ fs, (toStr kv.2).isSome = true) →
      ∃ out : List (String × JSVal),
        List.Forall₂ (fun kv kv' => kv'.1 = kv.1 ∧ parseInt kv.2 = some kv'.2) fs out ∧
        issue token Route.postAddReview p body = some
          ⟨Method.POST, root ++ "/reviews",
            some (obj (setField "characteristics" (obj out) rf)), token⟩ ∧
        (setField "characteristics" (obj out) rf).map Prod.fst = rf.map Prod.fst ∧
        ∀ k, k ≠ "characteristics" →
          JSVal.lookup k (setField "characteristics" (obj out) rf) = JSVal.lookup k rf) ∧
    (∀ (rf : List (String × JSVal)) (items : List JSVal), body.optMember "review" = obj rf →
      (JSVal.obj rf).getField "characteristics" = arr items →
      (∀ v ∈ items, (toStr v).isSome = true) →
      ∃ out : List JSVal,
        List.Forall₂ (fun v n => parseInt v = some n) items out ∧
        issue token Route.postAddReview p body = some
          ⟨Method.POST, root ++ "/reviews",
            some (obj (setField "characteristics" (arr out) rf)), token⟩ ∧
        (setField "characteristics" (arr out) rf).map Prod.fst = rf.map Prod.fst ∧
        ∀ k, k ≠ "characteristics" →
          JSVal.lookup k (setField "characteristics" (arr out) rf) = JSVal.lookup k rf) ∧
    ((body.optMember "review").truthy = false ∨
      ((body.optMember "review").getField "characteristics").truthy = false ∨
      ((∀ fs, (body.optMember "review").getField "characteristics" ≠ obj fs) ∧
       (∀ items, (body.optMember "review").getField "characteristics" ≠ arr items)) →
      issue token Route.postAddReview p body = some
        ⟨Method.POST, root ++ "/reviews", some (body.optMember "review"), token⟩) ∧
    (body.optMember "review" = JSVal.undefined →
      issue token Route.postAddReview p body = some
        ⟨Method.POST, root ++ "/reviews", some JSVal.undefined, token⟩) := by
  obtain ⟨hobj, harr, hsame, hmissing⟩ := addReviewPayload_cases body
  refine ⟨?_, ?_, ?_, ?_⟩
  · intro rf fs hr hc hnd hconv
    obtain ⟨out, hout, hpay, hkeys, hothers⟩ := hobj rf fs hr hc hnd hconv
    exact ⟨out, hout, by rw [issue_addReview, hpay]; rfl, hkeys, hothers⟩
  · intro rf items hr hc hconv
    obtain ⟨out, hout, hpay, hkeys, hothers⟩ := harr rf items hr hc hconv
    exact ⟨out, hout, by rw [issue_addReview, hpay]; rfl, hkeys, hothers⟩
  · intro h
    rw [issue_addReview, hsame h]
    rfl
  · intro h
    rw [issue_addReview, hmissing h]
    rfl

/-- Witness of the amended C5: the characteristics `{ fit: "3", size: "2.9",
other: "x" }` are forwarded as `{ fit: 3, size: 2, other: NaN }` and the other
member of the review is kept; the Number 2.9 is parsed to 2, the digits
`9007199254740993` to the Number 9007199254740992 and the Number `1e+21` to
1; a body without review is forwarded as `undefined`. -/
theorem addReview_forwards_coerced_review_witness :
    (∃ out : List (String × JSVal),
      List.Forall₂ (fun kv kv' => kv'.1 = kv.1 ∧ parseInt kv.2 = some kv'.2)
        [("fit", str "3"), ("size", str "2.9"), ("other", str "x")] out ∧
      issue (str "T") Route.postAddReview ""
          (obj [("review", obj [("rating", lit 5), ("characteristics",
            obj [("fit", str "3"), ("size", str "2.9"), ("other", str "x")])])])
        = some ⟨Method.POST, root ++ "/reviews",
            some (obj (setField "characteristics" (obj out)
              [("rating", lit 5), ("characteristics",
                obj [("fit", str "3"), ("size", str "2.9"), ("other", str "x")])])),
            str "T"⟩ ∧
      (setField "characteristics" (obj out)
            [("rating", lit 5), ("characteristics",
              obj [("fit", str "3"), ("size", str "2.9"), ("other", str "x")])]).map Prod.fst
        = ["rating", "characteristics"] ∧
      ∀ k, k ≠ "characteristics" →
        JSVal.lookup k (setField "characteristics" (obj out)
            [("rating", lit 5), ("characteristics",
              obj [("fit", str "3"), ("size", str "2.9"), ("other", str "x")])])
          = JSVal.lookup k [("rating", lit 5), ("characteristics",
              obj [("fit", str "3"), ("size", str "2.9"), ("other", str "x")])]) ∧
    issue (str "T") Route.postAddReview ""
        (obj [("review", obj [("rating", lit 5), ("characteristics",
          obj [("fit", str "3"), ("size", str "2.9"), ("other", str "x")])])])
      = some ⟨Method.POST, root ++ "/reviews",
          some (obj [("rating", lit 5), ("characteristics",
            obj [("fit", lit 3), ("size", lit 2), ("other", num JSNum.nan)])]), str "T"⟩ ∧
    issue (str "T") Route.postAddReview ""
        (obj [("review", obj [("characteristics",
          obj [("a", num ⟨"2.9"⟩), ("b", str "9007199254740993"), ("c", num ⟨"1e+21"⟩),
               ("d", str "-7.5")])])])
      = some ⟨Method.POST, root ++ "/reviews",
          some (obj [("characteristics",
            obj [("a", num ⟨"2"⟩), ("b", num ⟨"9007199254740992"⟩), ("c", num ⟨"1"⟩),
                 ("d", num ⟨"-7"⟩)])]), str "T"⟩ ∧
    issue (str "T") Route.postAddReview "" (obj []) = some
      ⟨Method.POST, root ++ "/reviews", some JSVal.undefined, str "T"⟩ :=
  ⟨(addReview_forwards_coerced_review (str "T") "" (obj [("review", obj [("rating", lit 5),
      ("characteristics", obj [("fit", str "3"), ("size", str "2.9"), ("other", str "x")])])])).1
      [("rating", lit 5), ("characteristics",
        obj [("fit", str "3"), ("size", str "2.9"), ("other", str "x")])]
      [("fit", str "3"), ("size", str "2.9"), ("other", str "x")]
      rfl rfl (by decide) (by decide),
   by decide,
   by decide,
   (addReview_forwards_coerced_review (str "T") "" (obj [])).2.2.2 rfl⟩

/-! ## `Promise.all` -/

theorem slotsAfter_getElem (outcomes : List UploadOutcome) (done : List Nat) (j : Nat) :
    (slotsAfter outcomes done)[j]? =
      if j < outcomes.length
      then some (if j ∈ done then outcomes[j]?.bind UploadOutcome.valueOf else none)
      else none := by
  unfold slotsAfter
  rw [List.getElem?_map]
  by_cases h : j < outcomes.length
  · rw [List.getElem?_range h]
    simp [h]
  · rw [List.getElem?_eq_none (by simpa using Nat.le_of_not_lt h)]
    simp [h]

theorem slotsAfter_length (outcomes : List UploadOutcome) (done : List Nat) :
    (slotsAfter outcomes done).length = outcomes.length := by
  simp [slotsAfter]

theorem slotsAfter_congr (outcomes : List UploadOutcome) (d d' : List Nat)
    (h : ∀ j, j < outcomes.length → (j ∈ d ↔ j ∈ d')) :
    slotsAfter outcomes d = slotsAfter outcomes d' := by
  unfold slotsAfter
  apply List.map_congr_left
  intro j hj
  have hlt := List.mem_range.mp hj
  by_cases hd : j ∈ d
  · simp [hd, (h j hlt).mp hd]
  · have hd' : j ∉ d' := fun hmem => hd ((h j hlt).mpr hmem)
    simp [hd, hd']

theorem slotsAfter_set (outcomes : List UploadOutcome) (done : List Nat) (i : Nat) (v : JSVal)
    (h : outcomes[i]? = some (UploadOutcome.resolved v)) :
    (slotsAfter outcomes done).set i (some v) = slotsAfter outcomes (done ++ [i]) := by
  have hi : i < outcomes.length := by
    by_contra hnot
    rw [List.getElem?_eq_none (Nat.le_of_not_lt hnot)] at h
    cases h
  apply List.ext_getElem?
  intro j
  rw [List.getElem?_set, slotsAfter_getElem, slotsAfter_getElem, slotsAfter_length]
  by_cases hij : i = j
  · subst hij
    simp [hi, h, UploadOutcome.valueOf]
  · have hji : ¬ j = i := fun e => hij e.symm
    simp [hij, hji]

theorem allSettled_iff (n : Nat) (done : List Nat) :
    allSettled n done = true ↔ ∀ j, j < n → j ∈ done := by
  simp [allSettled, List.all_eq_true, List.mem_range]

theorem firstRejection_none_iff (outcomes : List UploadOutcome) (done : List Nat) :
    firstRejection outcomes done = none ↔
      ∀ i ∈ done, outcomes[i]?.bind UploadOutcome.reasonOf = none := by
  simp [firstRejection, List.findSome?_eq_none_iff]

theorem firstRejection_append (outcomes : List UploadOutcome) (done : List Nat) (i : Nat) :
    firstRejection outcomes (done ++ [i]) =
      (firstRejection outcomes done).or (outcomes[i]?.bind UploadOutcome.reasonOf) := by
  simp [firstRejection, List.findSome?_append, List.findSome?]
  cases outcomes[i]?.bind UploadOutcome.reasonOf <;> rfl

/-- A settled position that is not a rejection holds a value. -/
theorem value_of_not_rejected (outcomes : List UploadOutcome) (j : Nat)
    (hj : j < outcomes.length)
    (h : outcomes[j]?.bind UploadOutcome.reasonOf = none) :
    ∃ v, outcomes[j]? = some (UploadOutcome.resolved v) := by
  rw [List.getElem?_eq_getElem hj] at h ⊢
  cases ho : outcomes[j] with
  | resolved v => exact ⟨v, rfl⟩
  | rejected e => simp [ho, UploadOutcome.reasonOf] at h

theorem slots_all_isSome (outcomes : List UploadOutcome) (done : List Nat)
    (h : firstRejection outcomes done = none) :
    (slotsAfter outcomes done).all Option.isSome = allSettled outcomes.length done := by
  rw [firstRejection_none_iff] at h
  rw [Bool.eq_iff_iff, allSettled_iff, List.all_eq_true]
  constructor
  · intro hall j hj
    have hmem : (slotsAfter outcomes done)[j]? =
        some (if j ∈ done then outcomes[j]?.bind UploadOutcome.valueOf else none) := by
      rw [slotsAfter_getElem, if_pos hj]
    have hin := List.getElem?_mem hmem
    by_contra hnot
    have := hall _ hin
    simp [hnot] at this
  · intro hall x hx
    obtain ⟨j, hjlt, hjx⟩ := List.getElem_of_mem hx
    have hj : j < outcomes.length := by simpa [slotsAfter_length] using hjlt
    have hget : (slotsAfter outcomes done)[j]? = some x := by
      rw [List.getElem?_eq_getElem hjlt, hjx]
    rw [slotsAfter_getElem, if_pos hj, if_pos (hall j hj)] at hget
    obtain ⟨v, hv⟩ := value_of_not_rejected outcomes j hj (h j (hall j hj))
    rw [hv] at hget
    simp only [Option.some_bind, UploadOutcome.valueOf, Option.some.injEq] at hget
    rw [← hget]
    rfl

theorem map_range_getElem {α : Type} (l : List α) :
    (List.range l.length).map (fun j => l[j]?) = l.map some := by
  apply List.ext_getElem?
  intro j
  rw [List.getElem?_map, List.getElem?_map]
  by_cases h : j < l.length
  · rw [List.getElem?_range h, List.getElem?_eq_getElem h]
    simp
  · rw [List.getElem?_eq_none (by simpa using Nat.le_of_not_lt h),
      List.getElem?_eq_none (Nat.le_of_not_lt h)]
    rfl

theorem slots_values (outcomes : List UploadOutcome) (done : List Nat)
    (hall : allSettled outcomes.length done = true) :
    (slotsAfter outcomes done).filterMap id = outcomes.filterMap UploadOutcome.valueOf := by
  rw [allSettled_iff] at hall
  have h1 : slotsAfter outcomes done =
      ((List.range outcomes.length).map (fun j => outcomes[j]?)).map
        (fun o => o.bind UploadOutcome.valueOf) := by
    unfold slotsAfter
    rw [List.map_map]
    apply List.map_congr_left
    intro j hj
    simp [hall j (List.mem_range.mp hj)]
  rw [h1, map_range_getElem, List.map_map, List.filterMap_map]
  rfl

theorem joinState_start (outcomes : List UploadOutcome) :
    promiseAllStart outcomes.length = joinState outcomes [] := by
  have hfr : firstRejection outcomes [] = none := rfl
  unfold joinState promiseAllStart
  rw [hfr]
  cases outcomes with
  | nil => rfl
  | cons o rest =>
    have hn : ¬ (o :: rest).length = 0 := by simp
    have hs : allSettled (o :: rest).length [] = false := by
      rw [Bool.eq_false_iff]
      intro hall
      have := (allSettled_iff _ _).mp hall 0 (by simp)
      simp at this
    simp only [hn, if_false, hs, Bool.false_eq_true]
    congr 1
    apply List.ext_getElem?
    intro j
    rw [slotsAfter_getElem]
    by_cases hj : j < (o :: rest).length
    · simp [hj, List.getElem?_replicate]
    · simp [hj, List.getElem?_replicate]

/-- One settlement moves the described state to the description of the longer
history. -/
theorem joinState_step (outcomes : List UploadOutcome) (done : List Nat) (i : Nat) :
    promiseAllSettle outcomes (joinState outcomes done) i = joinState outcomes (done ++ [i]) := by
  unfold joinState
  rw [firstRejection_append]
  cases hfr : firstRejection outcomes done with
  | some e => rfl
  | none =>
    simp only [Option.or]
    by_cases hs : allSettled outcomes.length done = true
    · have hs' : allSettled outcomes.length (done ++ [i]) = true := by
        rw [allSettled_iff] at hs ⊢
        intro j hj
        exact List.mem_append_left _ (hs j hj)
      have hnone : outcomes[i]?.bind UploadOutcome.reasonOf = none := by
        cases hi : outcomes[i]? with
        | none => rfl
        | some o =>
          have hlt : i < outcomes.length := by
            by_contra hnot
            rw [List.getElem?_eq_none (Nat.le_of_not_lt hnot)] at hi
            cases hi
          have := (firstRejection_none_iff _ _).mp hfr i ((allSettled_iff _ _).mp hs i hlt)
          rw [hi] at this
          exact this
      rw [hnone]
      simp only [hs, hs', if_true]
      rfl
    · have hsf : allSettled outcomes.length done = false := by simpa using hs
      simp only [hsf, Bool.false_eq_true, if_false]
      cases hi : outcomes[i]? with
      | none =>
        have hge : outcomes.length ≤ i := by
          by_contra hnot
          rw [List.getElem?_eq_getElem (Nat.lt_of_not_le hnot)] at hi
          cases hi
        have hcongr : slotsAfter outcomes (done ++ [i]) = slotsAfter outcomes done := by
          apply slotsAfter_congr
          intro j hj
          have hne : j ≠ i := fun e => absurd (e ▸ hj) (Nat.not_lt.mpr hge)
          simp [hne]
        have hs' : allSettled outcomes.length (done ++ [i]) = false := by
          rw [Bool.eq_false_iff]
          intro hall
          apply hs
          rw [allSettled_iff] at hall ⊢
          intro j hj
          have hne : j ≠ i := fun e => absurd (e ▸ hj) (Nat.not_lt.mpr hge)
          simpa [hne] using hall j hj
        simp only [promiseAllSettle, hi, Option.none_bind, hs', Bool.false_eq_true, if_false,
          hcongr]
      | some o =>
        cases o with
        | rejected e =>
          simp only [promiseAllSettle, hi, Option.some_bind, UploadOutcome.reasonOf]
        | resolved v =>
          have hfr' : firstRejection outcomes (done ++ [i]) = none := by
            rw [firstRejection_append, hfr, hi]
            rfl
          simp only [promiseAllSettle, hi, Option.some_bind, UploadOutcome.reasonOf,
            slotsAfter_set outcomes done i v hi, slots_all_isSome _ _ hfr']
          by_cases hs' : allSettled outcomes.length (done ++ [i]) = true
          · simp only [hs', if_true]
            rw [slots_values _ _ hs']
          · simp only [hs', if_false, Bool.false_eq_true]

/-- The promise `Promise.all` is fully described by the order in which its inputs settle. -/
theorem promiseAll_eq_joinState (outcomes : List UploadOutcome) (order : List Nat) :
    promiseAll outcomes order = joinState outcomes order := by
  have gen : ∀ (l done : List Nat),
      l.foldl (promiseAllSettle outcomes) (joinState outcomes done)
        = joinState outcomes (done ++ l) := by
    intro l
    induction l with
    | nil => intro done; simp
    | cons i rest ih =>
      intro done
      rw [List.foldl_cons, joinState_step, ih]
      simp
  unfold promiseAll
  rw [joinState_start, gen]
  rfl

/-- The failure path always logs a record. -/
theorem relayError_logs (err : JSVal) (h : Handled) (heq : relayError err = some h) :
    h.logged ≠ none := by
  by_cases hn : err.isNullish = true
  · rw [relayError_nullish err hn] at heq
    cases heq
  · obtain ⟨text, _, hrel⟩ := relayError_eq err (by simpa using hn)
    rw [hrel] at heq
    cases heq
    simp

theorem uploadOutcomes_length (uploader : Nat → JSVal → UploadOutcome) (images : List JSVal) :
    (uploadOutcomes uploader images).length = images.length := by
  simp [uploadOutcomes]

theorem uploadOutcomes_getElem (uploader : Nat → JSVal → UploadOutcome) (images : List JSVal)
    (i : Nat) (img : JSVal) (h : images[i]? = some img) :
    (uploadOutcomes uploader images)[i]? = some (uploader i img) := by
  have hi : i < images.length := by
    by_contra hnot
    rw [List.getElem?_eq_none (Nat.le_of_not_lt hnot)] at h
    cases h
  unfold uploadOutcomes
  rw [List.getElem?_zipWith, List.getElem?_range hi, h]

theorem outcomes_of_no_rejection (outcomes : List UploadOutcome)
    (h : ∀ o ∈ outcomes, o.reasonOf = none) :
    outcomes = (outcomes.filterMap UploadOutcome.valueOf).map UploadOutcome.resolved := by
  induction outcomes with
  | nil => rfl
  | cons o rest ih =>
    have hrest := ih (fun o' ho' => h o' (List.mem_cons_of_mem _ ho'))
    cases o with
    | resolved v =>
      simp only [List.filterMap_cons, UploadOutcome.valueOf, List.map_cons]
      rw [← hrest]
    | rejected e =>
      have := h _ (List.mem_cons_self _ _)
      simp [UploadOutcome.reasonOf] at this

theorem values_of_resolved (rs : List JSVal) :
    (rs.map UploadOutcome.resolved).filterMap UploadOutcome.valueOf = rs := by
  induction rs with
  | nil => rfl
  | cons r rest ih => simp [UploadOutcome.valueOf, ih]

theorem firstRejection_of_resolved (rs : List JSVal) (order : List Nat) :
    firstRejection (rs.map UploadOutcome.resolved) order = none := by
  rw [firstRejection_none_iff]
  intro i _
  rw [List.getElem?_map]
  cases rs[i]? <;> rfl

/-- The answer of the upload handler, from the description of `Promise.all`. -/
theorem upload_answer (uploader : Nat → JSVal → UploadOutcome) (order : List Nat)
    (body : JSVal)
    (hsettle : ∀ j, j < (uploadImages body).length → j ∈ order) :
    (upload uploader order body).answer =
      match firstRejection (uploadOutcomes uploader (uploadImages body)) order with
      | some e => relayError e
      | none => some
          { response := ⟨lit 201, Sent.json (arr
              ((uploadOutcomes uploader (uploadImages body)).filterMap UploadOutcome.valueOf))⟩,
            logged := none } := by
  have hall : allSettled (uploadOutcomes uploader (uploadImages body)).length order = true := by
    rw [allSettled_iff, uploadOutcomes_length]
    exact hsettle
  simp only [upload, promiseAll_eq_joinState, joinState, hall, if_true]
  cases firstRejection (uploadOutcomes uploader (uploadImages body)) order <;> rfl

/-- A failure answered with an array carries that array as its own upstream
body. -/
theorem relayError_array_body (e : JSVal) (h : Handled) (xs : List JSVal)
    (heq : relayError e = some h) (hbody : h.response.body = Sent.json (arr xs)) :
    (e.optMember "response").optMember "data" = arr xs := by
  by_cases hn : e.isNullish = true
  · rw [relayError_nullish e hn] at heq
    cases heq
  · have hnn : e.isNullish = false := by simpa using hn
    obtain ⟨text, _, hrel⟩ := relayError_eq e hnn
    rw [hrel] at heq
    cases heq
    rw [optMember_of_not_nullish _ hnn]
    simp only [Sent.json.injEq] at hbody
    split at hbody
    · exact hbody
    · cases hbody

/-- A failure answered with status 201 and an array carries them in its own
upstream response. -/
theorem relayError_201_array (e : JSVal) (h : Handled) (xs : List JSVal)
    (heq : relayError e = some h) (hresp : h.response = ⟨lit 201, Sent.json (arr xs)⟩) :
    (e.optMember "response").optMember "status" = lit 201 ∧
    (e.optMember "response").optMember "data" = arr xs := by
  by_cases hn : e.isNullish = true
  · rw [relayError_nullish e hn] at heq
    cases heq
  · have hnn : e.isNullish = false := by simpa using hn
    obtain ⟨text, _, hrel⟩ := relayError_eq e hnn
    rw [hrel] at heq
    cases heq
    rw [optMember_of_not_nullish _ hnn]
    simp only [Response.mk.injEq, Sent.json.injEq] at hresp
    obtain ⟨hst, hbody⟩ := hresp
    constructor
    · unfold JSVal.orElse at hst
      split at hst
      · exact hst
      · exact absurd hst (by decide)
    · split at hbody
      · exact hbody
      · cases hbody

/-- C7, as stated, fails: when the second of three uploads is rejected with a
reason whose own upstream response has status 201 and an array body, the
caller is answered 201 with that array, here a partial array of results,
although an upload failed. -/
theorem upload_failure_answered_201_array :
    (uploadOutcomes
        (fun i img => if i = 1 then UploadOutcome.rejected (obj [("message", str "partial"),
            ("response", obj [("status", lit 201), ("data", arr [obj [("url", str "a")]])])])
          else UploadOutcome.resolved (obj [("url", img)]))
        (uploadImages (obj [("images", arr [str "a", str "b", str "c"])])))[1]?
      = some (UploadOutcome.rejected (obj [("message", str "partial"),
            ("response", obj [("status", lit 201), ("data", arr [obj [("url", str "a")]])])])) ∧
    ((upload
        (fun i img => if i = 1 then UploadOutcome.rejected (obj [("message", str "partial"),
            ("response", obj [("status", lit 201), ("data", arr [obj [("url", str "a")]])])])
          else UploadOutcome.resolved (obj [("url", img)]))
        [2, 0, 1] (obj [("images", arr [str "a", str "b", str "c"])])).answer.map
        fun h => h.response)
      = some ⟨lit 201, Sent.json (arr [obj [("url", str "a")]])⟩ := by
  decide

/-- C7, amended. For every batch sent to `POST /upload` and every way the
uploads settle in which no rejection reason carries an upstream response with
status 201 and an array body: the handler calls the uploader once per image;
the response is 201 with an array of results if and only if every upload
succeeds, and then the array holds exactly one result per image, result `i`
being the result of the upload of image `i` whatever the settle order, and
nothing is logged; if an upload fails, the answer is `relayError` applied to
the reason of a failed upload: the response is not a 201 with an array, and
its body is an array only when that array is the upstream body carried by the
failure itself. -/
theorem upload_all_or_nothing (uploader : Nat → JSVal → UploadOutcome) (order : List Nat)
    (body : JSVal)
    (hsettle : ∀ j, j < (uploadImages body).length → j ∈ order)
    (hreason : ∀ (i : Nat) (e : JSVal),
      (uploadOutcomes uploader (uploadImages body))[i]? = some (UploadOutcome.rejected e) →
      ∀ xs, ¬ ((e.optMember "response").optMember "status" = lit 201 ∧
        (e.optMember "response").optMember "data" = arr xs)) :
    (upload uploader order body).calls = uploadImages body ∧
    (∀ rs : List JSVal,
      uploadOutcomes uploader (uploadImages body) = rs.map UploadOutcome.resolved →
      (upload uploader order body).answer =
        some { response := ⟨lit 201, Sent.json (arr rs)⟩, logged := none } ∧
      rs.length = (uploadImages body).length ∧
      ∀ i img, (uploadImages body)[i]? = some img →
        ∃ r, rs[i]? = some r ∧ uploader i img = UploadOutcome.resolved r) ∧
    ((∃ rs : List JSVal, ((upload uploader order body).answer.map fun h => h.response) =
        some ⟨lit 201, Sent.json (arr rs)⟩) ↔
      ∃ rs : List JSVal,
        uploadOutcomes uploader (uploadImages body) = rs.map UploadOutcome.resolved) ∧
    ((∃ (i : Nat) (e : JSVal), (uploadOutcomes uploader (uploadImages body))[i]?
        = some (UploadOutcome.rejected e)) →
      ∃ (i : Nat) (e : JSVal), (uploadOutcomes uploader (uploadImages body))[i]?
          = some (UploadOutcome.rejected e) ∧
        (upload uploader order body).answer = relayError e ∧
        (∀ rs : List JSVal, ((upload uploader order body).answer.map fun h => h.response) ≠
          some ⟨lit 201, Sent.json (arr rs)⟩) ∧
        ∀ (h : Handled) (xs : List JSVal), (upload uploader order body).answer = some h →
          h.response.body = Sent.json (arr xs) →
          (e.optMember "response").optMember "data" = arr xs) := by
  have hans := upload_answer uploader order body hsettle
  have hsuccess : ∀ rs : List JSVal,
      uploadOutcomes uploader (uploadImages body) = rs.map UploadOutcome.resolved →
      (upload uploader order body).answer =
        some { response := ⟨lit 201, Sent.json (arr rs)⟩, logged := none } := by
    intro rs hrs
    rw [hans, hrs, firstRejection_of_resolved, values_of_resolved]
  have hfirst : ∀ e', firstRejection (uploadOutcomes uploader (uploadImages body)) order
      = some e' →
      ∃ i' : Nat, (uploadOutcomes uploader (uploadImages body))[i']?
        = some (UploadOutcome.rejected e') := by
    intro e' hfr
    obtain ⟨i', _, hi'⟩ := List.exists_of_findSome?_eq_some hfr
    refine ⟨i', ?_⟩
    cases ho : (uploadOutcomes uploader (uploadImages body))[i']? with
    | none =>
      rw [ho] at hi'
      cases hi'
    | some o =>
      rw [ho] at hi'
      cases o with
      | resolved v => cases hi'
      | rejected e2 =>
        simp only [Option.some_bind, UploadOutcome.reasonOf, Option.some.injEq] at hi'
        rw [hi']
  have hrelay : ∀ e' (rs : List JSVal),
      firstRejection (uploadOutcomes uploader (uploadImages body)) order = some e' →
      (relayError e').map (fun h => h.response) ≠ some ⟨lit 201, Sent.json (arr rs)⟩ := by
    intro e' rs hfr hmap
    obtain ⟨i', hi'⟩ := hfirst e' hfr
    cases hrel : relayError e' with
    | none =>
      rw [hrel] at hmap
      cases hmap
    | some h =>
      rw [hrel] at hmap
      simp only [Option.map_some', Option.some.injEq] at hmap
      exact hreason i' e' hi' rs (relayError_201_array e' h rs hrel hmap)
  refine ⟨rfl, ?_, ⟨?_, ?_⟩, ?_⟩
  · intro rs hrs
    refine ⟨hsuccess rs hrs, ?_, ?_⟩
    · have := congrArg List.length hrs
      rw [uploadOutcomes_length, List.length_map] at this
      exact this.symm
    · intro i img himg
      have hget := uploadOutcomes_getElem uploader _ i img himg
      rw [hrs, List.getElem?_map] at hget
      cases hr : rs[i]? with
      | none =>
        rw [hr] at hget
        cases hget
      | some r =>
        rw [hr] at hget
        simp only [Option.map_some', Option.some.injEq] at hget
        exact ⟨r, rfl, hget.symm⟩
  · rintro ⟨rs, hrs⟩
    rw [hans] at hrs
    cases hfr : firstRejection (uploadOutcomes uploader (uploadImages body)) order with
    | some e =>
      rw [hfr] at hrs
      exact absurd hrs (hrelay e rs hfr)
    | none =>
      refine ⟨_, outcomes_of_no_rejection _ ?_⟩
      intro o ho
      obtain ⟨j, hj⟩ := List.getElem?_of_mem ho
      have hlt : j < (uploadImages body).length := by
        by_contra hnot
        rw [List.getElem?_eq_none
          (by rw [uploadOutcomes_length]; exact Nat.le_of_not_lt hnot)] at hj
        cases hj
      have := (firstRejection_none_iff _ _).mp hfr j (hsettle j hlt)
      rw [hj] at this
      exact this
  · rintro ⟨rs, hrs⟩
    exact ⟨rs, by rw [hsuccess rs hrs]; rfl⟩
  · rintro ⟨i, e, hie⟩
    have hlt : i < (uploadImages body).length := by
      by_contra hnot
      rw [List.getElem?_eq_none
        (by rw [uploadOutcomes_length]; exact Nat.le_of_not_lt hnot)] at hie
      cases hie
    cases hfr : firstRejection (uploadOutcomes uploader (uploadImages body)) order with
    | none =>
      have := (firstRejection_none_iff _ _).mp hfr i (hsettle i hlt)
      rw [hie] at this
      cases this
    | some e' =>
      obtain ⟨i', hrej⟩ := hfirst e' hfr
      have hans' := hans
      rw [hfr] at hans'
      refine ⟨i', e', hrej, hans', ?_, ?_⟩
      · intro rs heq
        rw [hans'] at heq
        exact hrelay e' rs hfr heq
      · intro h xs hh hbody
        rw [hans'] at hh
        exact relayError_array_body e' h xs hh hbody

/-- Witness of the amended C7: three images, settling in the order 2, 0, 1.
When all succeed the answer holds the three results in input order; when the
second upload fails with a reason without upstream response, the answer is the
translation of a failure and not a 201 array. -/
theorem upload_all_or_nothing_witness :
    ((upload (fun _ img => UploadOutcome.resolved (obj [("url", img)])) [2, 0, 1]
        (obj [("images", arr [str "a", str "b", str "c"])])).answer =
      some ⟨⟨lit 201, Sent.json (arr
          [obj [("url", str "a")], obj [("url", str "b")], obj [("url", str "c")]])⟩, none⟩ ∧
      [obj [("url", str "a")], obj [("url", str "b")], obj [("url", str "c")]].length
        = (uploadImages (obj [("images", arr [str "a", str "b", str "c"])])).length ∧
      ∀ i img, (uploadImages (obj [("images", arr [str "a", str "b", str "c"])]))[i]?
          = some img →
        ∃ r, [obj [("url", str "a")], obj [("url", str "b")], obj [("url", str "c")]][i]?
            = some r ∧
          (fun (_ : Nat) (img : JSVal) => UploadOutcome.resolved (obj [("url", img)])) i img
            = UploadOutcome.resolved r) ∧
    (∃ (i : Nat) (e : JSVal),
      (uploadOutcomes
          (fun i img => if i = 1 then UploadOutcome.rejected (obj [("message", str "too large")])
            else UploadOutcome.resolved (obj [("url", img)]))
          (uploadImages (obj [("images", arr [str "a", str "b", str "c"])])))[i]?
        = some (UploadOutcome.rejected e) ∧
      (upload (fun i img => if i = 1 then UploadOutcome.rejected (obj [("message", str "too large")])
          else UploadOutcome.resolved (obj [("url", img)])) [2, 0, 1]
          (obj [("images", arr [str "a", str "b", str "c"])])).answer = relayError e ∧
      (∀ rs : List JSVal,
        ((upload (fun i img => if i = 1 then
              UploadOutcome.rejected (obj [("message", str "too large")])
            else UploadOutcome.resolved (obj [("url", img)])) [2, 0, 1]
          (obj [("images", arr [str "a", str "b", str "c"])])).answer.map fun h => h.response) ≠
          some ⟨lit 201, Sent.json (arr rs)⟩) ∧
      ∀ (h : Handled) (xs : List JSVal),
        (upload (fun i img => if i = 1 then
              UploadOutcome.rejected (obj [("message", str "too large")])
            else UploadOutcome.resolved (obj [("url", img)])) [2, 0, 1]
          (obj [("images", arr [str "a", str "b", str "c"])])).answer = some h →
        h.response.body = Sent.json (arr xs) →
        (e.optMember "response").optMember "data" = arr xs) ∧
    ((upload (fun i img => if i = 1 then UploadOutcome.rejected (obj [("message", str "too large")])
        else UploadOutcome.resolved (obj [("url", img)])) [2, 0, 1]
        (obj [("images", arr [str "a", str "b", str "c"])])).answer.map fun h => h.response) =
      some ⟨lit 500, Sent.json (obj [("error", str "too large")])⟩ :=
  ⟨(upload_all_or_nothing (fun _ img => UploadOutcome.resolved (obj [("url", img)])) [2, 0, 1]
      (obj [("images", arr [str "a", str "b", str "c"])]) (by decide)
      (by
        intro i e h
        rcases i with _ | _ | _ | i <;> cases h)).2.1
      [obj [("url", str "a")], obj [("url", str "b")], obj [("url", str "c")]] (by decide),
   (upload_all_or_nothing
      (fun i img => if i = 1 then UploadOutcome.rejected (obj [("message", str "too large")])
        else UploadOutcome.resolved (obj [("url", img)])) [2, 0, 1]
      (obj [("images", arr [str "a", str "b", str "c"])]) (by decide)
      (by
        intro i e h xs hx
        rcases i with _ | _ | _ | i
        · cases h
        · cases h
          exact absurd hx.1 (by decide)
        · cases h
        · cases h)).2.2.2 ⟨1, obj [("message", str "too large")], by decide⟩,
   by decide⟩

end Atelier
